import Mathlib

/-!
# kubekite: job lifecycle engine (`pkg/kubernetes/jobs.go`)

A shallow embedding of `KubeJobManager.LaunchJob` and of one cycle of
`KubeJobManager.cleanCompletedJobs`, with the properties of the job derivation,
of the launch sequence and of the completion reconciler.

Conventions of the embedding.

* Go strings are `String`; `strings.Split` with a one-byte separator is `Split`,
  `strings.Join` is `String.intercalate`.
* A Go `map[string]T` is an association list (`GoMap`), read with `mapGet` and written
  with `mapSet`.  Where the source writes into a map that may be nil
  (`container.Resources.Requests`), the field is an `Option`, `none` being the nil map.
* A call either returns to its caller or halts the process (`log.Fatal`, a runtime panic);
  this is the type `Halt` carried in `Except`.
* The cluster client, `json.Unmarshal` and `resource.ParseQuantity` are libraries outside
  the repository; they are parameters (`Externals`, `JobInterface`, `PodInterface`).
  The quantity type is the type parameter `Q`.
-/

namespace Kubekite

/-! ## Strings -/

/-- Pieces of a character list between occurrences of `sep` (always at least one piece). -/
def splitOn (sep : Char) : List Char → List (List Char)
  | [] => [[]]
  | c :: cs =>
    if c = sep then [] :: splitOn sep cs
    else
      match splitOn sep cs with
      | [] => [[c]]
      | h :: t => (c :: h) :: t

/-- Go `strings.Split(s, sep)` for a separator of one character. -/
def Split (s : String) (sep : Char) : List String :=
  (splitOn sep s.data).map String.mk

/-! ## Go maps with string keys -/

/-- A Go `map[string]α` as an association list with at most one pair per key in use. -/
abbrev GoMap (α : Type) := List (String × α)

/-- Go `m[k]` read with the comma-ok form: `none` when the key is absent. -/
def mapGet {α : Type} : GoMap α → String → Option α
  | [], _ => none
  | (k', v) :: m, k => if k' = k then some v else mapGet m k

/-- Go `m[k] = v`. -/
def mapSet {α : Type} (m : GoMap α) (k : String) (v : α) : GoMap α :=
  (k, v) :: m.filter (fun p => decide (p.1 ≠ k))

/-! ## Kubernetes objects (the fields the source reads or writes) -/

/-- The `corev1.EnvVar` triple; `ValueFrom` is the optional reference, carried by name. -/
structure EnvVar where
  Name : String
  Value : String
  ValueFrom : Option String
deriving DecidableEq

/-- The `corev1.ResourceRequirements`; a map that the template does not declare is nil. -/
structure ResourceRequirements (Q : Type) where
  Limits : Option (GoMap Q)
  Requests : Option (GoMap Q)
deriving DecidableEq

/-- The `corev1.Container`. -/
structure Container (Q : Type) where
  Name : String
  Image : String
  Env : List EnvVar
  Resources : ResourceRequirements Q
deriving DecidableEq

/-- The `corev1.PodSpec`. -/
structure PodSpec (Q : Type) where
  Containers : List (Container Q)
deriving DecidableEq

/-- The `metav1.ObjectMeta`. -/
structure ObjectMeta where
  Name : String
  Labels : GoMap String
deriving DecidableEq

/-- The `corev1.PodTemplateSpec`. -/
structure PodTemplateSpec (Q : Type) where
  ObjectMeta : ObjectMeta
  Spec : PodSpec Q
deriving DecidableEq

/-- The `batchv1.JobSpec`. -/
structure JobSpec (Q : Type) where
  Template : PodTemplateSpec Q
deriving DecidableEq

/-- The `batchv1.Job`. -/
structure Job (Q : Type) where
  ObjectMeta : ObjectMeta
  Spec : JobSpec Q
deriving DecidableEq

/-- The zero value `batchv1.Job{}`. -/
def emptyJob (Q : Type) : Job Q :=
  { ObjectMeta := { Name := "", Labels := [] },
    Spec := { Template := { ObjectMeta := { Name := "", Labels := [] },
                            Spec := { Containers := [] } } } }

/-- The `buildkite.Job` fields the launcher reads: `ID` is a `*string`. -/
structure BuildkiteJob where
  ID : Option String
  AgentQueryRules : List String
deriving DecidableEq

/-! ## Ways a call can end -/

/-- How the process is halted instead of the call returning. -/
inductive Halt where
  | fatal (msg : String)
  | panic (msg : String)
deriving DecidableEq

/-- Libraries used by the derivation: `json.Unmarshal` into a fresh `batchv1.Job`
(`none` when it returns an error) and `resource.ParseQuantity`. -/
structure Externals (Q : Type) where
  Unmarshal : String → Option (Job Q)
  ParseQuantity : String → Option Q

/-! ## Derivation of the job (`LaunchJob`, lines 84 to 126) -/

/-- The `jobLabels` map built at lines 84 to 87. -/
def jobLabels (org pipeline : String) : GoMap String :=
  mapSet (mapSet (mapSet [] "kubekite-managed" "true") "kubekite-org" org)
    "kubekite-pipeline" pipeline

/-- Go `container.Resources.Requests[name] = quantity`: a write into a nil map panics. -/
def setRequest {Q : Type} (c : Container Q) (name : String) (quantity : Q) :
    Except Halt (Container Q) :=
  match c.Resources.Requests with
  | none => .error (.panic "assignment to entry in nil map")
  | some m => .ok { c with Resources := { c.Resources with Requests := some (mapSet m name quantity) } }

/-- One iteration of the loop over `job.AgentQueryRules` (lines 103 to 122). -/
def applyRule {Q : Type} (x : Externals Q) (container : Container Q) (v : String) :
    Except Halt (Container Q) :=
  match Split v '=' with
  | [rule_key, rule_value] =>
    if rule_key = "image" then .ok { container with Image := rule_value }
    else if rule_key = "cpu" then
      match x.ParseQuantity rule_value with
      | some quantity => setRequest container "cpu" quantity
      | none => .ok container
    else if rule_key = "memory" then
      match x.ParseQuantity rule_value with
      | some quantity => setRequest container "memory" quantity
      | none => .ok container
    else .ok container
  | _ => .ok container

/-- The loop over `job.AgentQueryRules` (lines 102 to 123). -/
def applyRules {Q : Type} (x : Externals Q) (container : Container Q) :
    List String → Except Halt (Container Q)
  | [] => .ok container
  | v :: vs =>
    match applyRule x container v with
    | .ok container' => applyRules x container' vs
    | .error h => .error h

/-- The variable `tags_var` of line 100. -/
def tagsVar (rules : List String) : EnvVar :=
  { Name := "BUILDKITE_AGENT_TAGS", Value := String.intercalate "," rules, ValueFrom := none }

/-- Lines 84 to 126 of `LaunchJob`: the job derived from the stored template for the
identifier `uuid` and the rule tokens, or the way the process halts. -/
def deriveJob {Q : Type} (x : Externals Q) (jobTemplate org pipeline uuid : String)
    (rules : List String) : Except Halt (Job Q) :=
  match x.Unmarshal jobTemplate with
  | none => .error (.fatal "json: cannot unmarshal")
  | some t =>
    match t.Spec.Template.Spec.Containers with
    | [] => .error (.panic "index out of range [0] with length 0")
    | c0 :: rest =>
      match applyRules x { c0 with Env := c0.Env ++ [tagsVar rules] } rules with
      | .error h => .error h
      | .ok container =>
        .ok { ObjectMeta := { Name := "buildkite-agent-" ++ uuid, Labels := jobLabels org pipeline },
              Spec := { Template := { ObjectMeta := { t.Spec.Template.ObjectMeta with
                                                       Labels := jobLabels org pipeline },
                                      Spec := { Containers := container :: rest } } } }

/-! ## The cluster client -/

/-- Why `Get` did not return a job. -/
inductive GetError where
  | notFound
  | other (msg : String)
deriving DecidableEq

/-- The `metav1.DeletionPropagation` policies. -/
inductive DeletionPropagation where
  | Orphan
  | Background
  | Foreground
deriving DecidableEq

/-- The operations of `k.Client.BatchV1().Jobs(ns)` that the source calls, over a cluster
state `σ`.  `Create` returns the pair `(result, err)` of the Go call: the typed client
allocates `result` itself, so it is an object also when `err` is set. -/
structure JobInterface (Q σ : Type) where
  Get : σ → String → String → Except GetError (Job Q) × σ
  Create : σ → String → Job Q → (Job Q × Option String) × σ
  Delete : σ → String → String → DeletionPropagation → Option String × σ

/-- The `corev1.ContainerStateTerminated` (its exit code). -/
structure ContainerStateTerminated where
  ExitCode : Int
deriving DecidableEq

/-- The `corev1.ContainerState`: each member is a pointer, nil when the state is not that. -/
structure ContainerState where
  Waiting : Option String
  Running : Option String
  Terminated : Option ContainerStateTerminated
deriving DecidableEq

/-- The `corev1.ContainerStatus`. -/
structure ContainerStatus where
  Name : String
  State : ContainerState
deriving DecidableEq

/-- The `corev1.PodStatus`. -/
structure PodStatus where
  ContainerStatuses : List ContainerStatus
deriving DecidableEq

/-- The `corev1.Pod`. -/
structure Pod where
  Name : String
  Labels : GoMap String
  Status : PodStatus
deriving DecidableEq

/-- The operation of `k.Client.CoreV1().Pods(ns)` that the source calls: `List` returns
the items of the pod list together with the error. -/
structure PodInterface (σ : Type) where
  List : σ → String → String → (List Pod × Option String) × σ

/-- A call issued to the cluster API. -/
inductive Call (Q : Type) where
  | get (ns name : String)
  | create (ns : String) (job : Job Q)
  | list (ns selector : String)
  | delete (ns name : String) (policy : DeletionPropagation)
deriving DecidableEq

/-- The cluster as the engine sees it: its state and the calls issued so far, in order. -/
structure Cluster (Q σ : Type) where
  state : σ
  calls : List (Call Q)

/-- The `KubeJobManager` (the client apart): `Jobs` is the registry. -/
structure KubeJobManager (Q : Type) where
  jobTemplate : String
  Jobs : GoMap (Job Q)
  kubeNamespace : String
  org : String
  pipeline : String
deriving DecidableEq

/-! ## `LaunchJob` -/

/-- The method `KubeJobManager.LaunchJob`: the value returned (`none` is the nil error) or the
halt, with the manager and the cluster after the call. -/
def LaunchJob {Q σ : Type} (x : Externals Q) (jobs : JobInterface Q σ) (k : KubeJobManager Q)
    (w : Cluster Q σ) (job : BuildkiteJob) :
    Except Halt (Option String) × KubeJobManager Q × Cluster Q σ :=
  match job.ID with
  | none => (.error (.panic "invalid memory address or nil pointer dereference"), k, w)
  | some uuid =>
    match deriveJob x k.jobTemplate k.org k.pipeline uuid job.AgentQueryRules with
    | .error h => (.error h, k, w)
    | .ok t =>
      let got := jobs.Get w.state k.kubeNamespace t.ObjectMeta.Name
      let w1 : Cluster Q σ :=
        { state := got.2, calls := w.calls ++ [Call.get k.kubeNamespace t.ObjectMeta.Name] }
      match got.1 with
      | .ok _ => (.ok none, k, w1)
      | .error _ =>
        let Jobs1 := mapSet (mapSet k.Jobs uuid (emptyJob Q)) uuid t
        let created := jobs.Create w1.state k.kubeNamespace t
        let w2 : Cluster Q σ :=
          { state := created.2, calls := w1.calls ++ [Call.create k.kubeNamespace t] }
        let k2 : KubeJobManager Q := { k with Jobs := mapSet Jobs1 uuid created.1.1 }
        match created.1.2 with
        | some err => (.ok (some ("could not launch job: " ++ err)), k2, w2)
        | none => (.ok none, k2, w2)

/-! ## One cycle of `cleanCompletedJobs` -/

/-- The label selector built at line 152. -/
def selector (org pipeline : String) : String :=
  "kubekite-managed=true,kubekite-org=" ++ org ++ ",kubekite-pipeline=" ++ pipeline

/-- Go `pod.Labels["job-name"]`: the empty string when the label is absent. -/
def jobNameOf (pod : Pod) : String :=
  (mapGet pod.Labels "job-name").getD ""

/-- The inner loop over `pod.Status.ContainerStatuses` (lines 164 to 176). -/
def cleanPod {Q σ : Type} (jobs : JobInterface Q σ) (ns : String) (pod : Pod) :
    Cluster Q σ → List ContainerStatus → Cluster Q σ
  | w, [] => w
  | w, container :: rest =>
    if container.State.Terminated ≠ none ∧ container.Name = "buildkite-agent" then
      let deleted := jobs.Delete w.state ns (jobNameOf pod) DeletionPropagation.Foreground
      cleanPod jobs ns pod
        { state := deleted.2,
          calls := w.calls ++ [Call.delete ns (jobNameOf pod) DeletionPropagation.Foreground] }
        rest
    else cleanPod jobs ns pod w rest

/-- The outer loop over `pods.Items` (lines 163 to 177). -/
def cleanPods {Q σ : Type} (jobs : JobInterface Q σ) (ns : String) :
    Cluster Q σ → List Pod → Cluster Q σ
  | w, [] => w
  | w, pod :: rest =>
    cleanPods jobs ns (cleanPod jobs ns pod w pod.Status.ContainerStatuses) rest

/-- One pass of the body of the `for` loop of `cleanCompletedJobs` (lines 158 to 177),
the sleep apart: the listing, whose error is only logged, then the deletes. -/
def cleanCycle {Q σ : Type} (jobs : JobInterface Q σ) (pods : PodInterface σ)
    (k : KubeJobManager Q) (w : Cluster Q σ) : Cluster Q σ :=
  let listed := pods.List w.state k.kubeNamespace (selector k.org k.pipeline)
  cleanPods jobs k.kubeNamespace
    { state := listed.2,
      calls := w.calls ++ [Call.list k.kubeNamespace (selector k.org k.pipeline)] }
    listed.1.1

/-! ## A cluster that is a store of jobs by name -/

/-- Jobs of the store that carry the name `name`. -/
def named {Q : Type} (name : String) (j : Job Q) : Bool :=
  decide (j.ObjectMeta.Name = name)

/-- The job interface of a cluster that is a store of jobs by name: `Get` finds the stored job
of that name or answers not found, `Create` stores a job whose name is free and refuses a
name in use, `Delete` removes the jobs of that name. -/
def storeJobs (Q : Type) : JobInterface Q (List (Job Q)) where
  Get := fun s _ name =>
    match s.find? (named name) with
    | some j => (.ok j, s)
    | none => (.error GetError.notFound, s)
  Create := fun s _ j =>
    if s.any (named j.ObjectMeta.Name) then ((emptyJob Q, some "already exists"), s)
    else ((j, none), s ++ [j])
  Delete := fun s _ name _ =>
    (if s.any (named name) then none else some "not found", s.filter (fun j => !named name j))

/-! ## The words of the specification -/

/-- The value `v` of a token of the form `key=v` with exactly one `=`; `none` for any other
token. -/
def ruleValue (key tok : String) : Option String :=
  if tok.data.count '=' = 1 ∧ (key.data ++ ['=']).isPrefixOf tok.data = true then
    some (String.mk (tok.data.drop (key.length + 1)))
  else none

/-- A bad rule: a malformed token (not exactly one `=`), a token of an unrecognized key, or
a `cpu` or `memory` token whose value does not parse as a quantity. -/
inductive BadRule {Q : Type} (x : Externals Q) : String → Prop where
  | malformed (tok : String) (h : tok.data.count '=' ≠ 1) : BadRule x tok
  | unrecognized (key v : String) (h : key ≠ "image" ∧ key ≠ "cpu" ∧ key ≠ "memory") :
      BadRule x (key ++ "=" ++ v)
  | unparsable (key v : String) (hk : key = "cpu" ∨ key = "memory")
      (hv : x.ParseQuantity v = none) : BadRule x (key ++ "=" ++ v)

/-- The equality-based reading of a label selector: its requirements are separated by `,`,
each requirement is `key=value`, and a label map is matched when it carries every such key
with that value; a selector with a requirement of another shape matches nothing. -/
def selectorMatches (sel : String) (labels : GoMap String) : Bool :=
  (Split sel ',').all (fun req =>
    match Split req '=' with
    | [key, value] => decide (mapGet labels key = some value)
    | _ => false)

/-- The request for the resource `name` of a container, `none` when it declares none. -/
def requestOf {Q : Type} (c : Container Q) (name : String) : Option Q :=
  match c.Resources.Requests with
  | none => none
  | some m => mapGet m name

/-- The effect of one rule token on the container, in the words of the specification. -/
def ruleEffect {Q : Type} (x : Externals Q) (c : Container Q) (tok : String) :
    Except Halt (Container Q) :=
  match ruleValue "image" tok with
  | some v => .ok { c with Image := v }
  | none =>
    match (ruleValue "cpu" tok).bind x.ParseQuantity with
    | some q => setRequest c "cpu" q
    | none =>
      match (ruleValue "memory" tok).bind x.ParseQuantity with
      | some q => setRequest c "memory" q
      | none => .ok c

/-- The first container of the pod template of a job, its primary container. -/
def primaryContainer {Q : Type} (j : Job Q) : Option (Container Q) :=
  j.Spec.Template.Spec.Containers.head?

/-- The image named by the last token of the form `image=v`, or `tplImage` when there is
none. -/
def lastImage (rules : List String) (tplImage : String) : String :=
  ((rules.filterMap (ruleValue "image")).getLast?).getD tplImage

/-- The quantity of the last token of the form `name=v` whose value parses as a quantity, or
`tplRequest` when there is none. -/
def lastRequest {Q : Type} (x : Externals Q) (name : String) (rules : List String)
    (tplRequest : Option Q) : Option Q :=
  ((rules.filterMap (fun tok => (ruleValue name tok).bind x.ParseQuantity)).getLast?).or tplRequest

/-- The image and the resource requirements of the primary container of a job. -/
def imageAndResources {Q : Type} (j : Job Q) : Option (String × ResourceRequirements Q) :=
  (primaryContainer j).map (fun c => (c.Image, c.Resources))

/-- The test of line 165 on a container status. -/
def isTerminatedAgent (c : ContainerStatus) : Bool :=
  decide (c.State.Terminated ≠ none ∧ c.Name = "buildkite-agent")

/-- A pod whose container named `buildkite-agent` has a terminated state. -/
def agentTerminated (pod : Pod) : Bool :=
  pod.Status.ContainerStatuses.any isTerminatedAgent

/-- A pod has at most one container status named `buildkite-agent` (container names are
unique within a pod). -/
abbrev oneAgent (pod : Pod) : Prop :=
  (pod.Status.ContainerStatuses.filter (fun c => decide (c.Name = "buildkite-agent"))).length ≤ 1

/-! ## A concrete instance -/

/-- A container `buildkite-agent` that declares a cpu request. -/
def demoContainer : Container Nat :=
  { Name := "buildkite-agent", Image := "buildkite/agent:3",
    Env := [{ Name := "HOME", Value := "/root", ValueFrom := none }],
    Resources := { Limits := none, Requests := some [("cpu", 1)] } }

/-- A job template, named `template`, with the one container `demoContainer`. -/
def demoTemplate : Job Nat :=
  { ObjectMeta := { Name := "template", Labels := [("app", "agent")] },
    Spec := { Template :=
      { ObjectMeta := { Name := "", Labels := [] },
        Spec := { Containers := [demoContainer] } } } }

/-- A container `buildkite-agent` that declares no resource requests. -/
def bareContainer : Container Nat :=
  { Name := "buildkite-agent", Image := "buildkite/agent:3",
    Env := [{ Name := "HOME", Value := "/root", ValueFrom := none }],
    Resources := { Limits := none, Requests := none } }

/-- A job template with the one container `bareContainer`. -/
def bareTemplate : Job Nat :=
  { ObjectMeta := { Name := "template", Labels := [] },
    Spec := { Template :=
      { ObjectMeta := { Name := "", Labels := [] },
        Spec := { Containers := [bareContainer] } } } }

/-- Libraries for the concrete instance: the document `job.json` decodes as `demoTemplate`,
the document `bare.json` as `bareTemplate`, no other document decodes, and the quantities
`2` and `4` parse. -/
def demoExternals : Externals Nat where
  Unmarshal := fun s =>
    if s = "job.json" then some demoTemplate
    else if s = "bare.json" then some bareTemplate
    else none
  ParseQuantity := fun s => if s = "2" then some 2 else if s = "4" then some 4 else none

/-- The manager of the concrete instance, its registry empty. -/
def demoManager : KubeJobManager Nat :=
  { jobTemplate := "job.json", Jobs := [], kubeNamespace := "ci", org := "acme",
    pipeline := "web" }

/-- A create call. -/
def isCreate {Q : Type} : Call Q → Bool
  | Call.create _ _ => true
  | _ => false

/-- A job interface whose lookup fails for a reason other than not found (the connection is
refused) while its create call is accepted. -/
def flakyJobs : JobInterface Nat Unit where
  Get := fun s _ _ => (.error (GetError.other "connection refused"), s)
  Create := fun s _ j => ((j, none), s)
  Delete := fun s _ _ _ => (none, s)

/-- A job interface that finds no job and refuses every create call; as the typed client
does, it returns the object it allocated for the reply, an empty job, with the error. -/
def refusingJobs : JobInterface Nat Unit where
  Get := fun s _ _ => (.error GetError.notFound, s)
  Create := fun s _ _ => ((emptyJob Nat, some "exceeded quota"), s)
  Delete := fun s _ _ _ => (some "forbidden", s)

/-- A pod with the label `job-name` and the given container statuses. -/
def demoPod (name job : String) (statuses : List ContainerStatus) : Pod :=
  { Name := name, Labels := [("job-name", job)], Status := { ContainerStatuses := statuses } }

/-- A container status that is terminated (`done`) or running. -/
def demoStatus (name : String) (done : Bool) : ContainerStatus :=
  { Name := name,
    State := if done then { Waiting := none, Running := none, Terminated := some { ExitCode := 0 } }
             else { Waiting := none, Running := some "now", Terminated := none } }

/-- A listing of three pods: the agent of the first has terminated, in the second only a
sidecar has terminated, the agent of the third has terminated next to a running sidecar. -/
def demoPods : PodInterface Unit where
  List := fun s _ _ =>
    (([demoPod "p1" "buildkite-agent-1" [demoStatus "buildkite-agent" true],
       demoPod "p2" "buildkite-agent-2"
         [demoStatus "sidecar" true, demoStatus "buildkite-agent" false],
       demoPod "p3" "buildkite-agent-3"
         [demoStatus "sidecar" false, demoStatus "buildkite-agent" true]], none), s)

/-- A listing of one pod that reports two terminated container statuses named
`buildkite-agent`. -/
def twinPods : PodInterface Unit where
  List := fun s _ _ =>
    (([demoPod "p1" "buildkite-agent-1"
        [demoStatus "buildkite-agent" true, demoStatus "buildkite-agent" true]], none), s)

/-- The job derived in the concrete instance for the identifier `42`, with the given image,
tags and requests of the primary container. -/
def demoDerived (image tags : String) (requests : GoMap Nat) : Job Nat :=
  { ObjectMeta :=
      { Name := "buildkite-agent-42",
        Labels := [("kubekite-pipeline", "web"), ("kubekite-org", "acme"),
                   ("kubekite-managed", "true")] },
    Spec := { Template :=
      { ObjectMeta :=
          { Name := "",
            Labels := [("kubekite-pipeline", "web"), ("kubekite-org", "acme"),
                       ("kubekite-managed", "true")] },
        Spec := { Containers :=
          [{ Name := "buildkite-agent", Image := image,
             Env := [{ Name := "HOME", Value := "/root", ValueFrom := none },
                     { Name := "BUILDKITE_AGENT_TAGS", Value := tags, ValueFrom := none }],
             Resources := { Limits := none, Requests := some requests } }] } } } }


/-! ## Lemmas on `Split` -/

theorem splitOn_ne_nil (sep : Char) (l : List Char) : splitOn sep l ≠ [] := by
  cases l with
  | nil => simp [splitOn]
  | cons c cs =>
    unfold splitOn
    split
    · simp
    · split <;> simp

theorem splitOn_length (sep : Char) (l : List Char) :
    (splitOn sep l).length = l.count sep + 1 := by
  induction l with
  | nil => simp [splitOn]
  | cons c cs ih =>
    unfold splitOn
    by_cases h : c = sep
    · subst h
      simp [ih]
    · have hc : (c == sep) = false := by simpa using h
      rw [if_neg h, List.count_cons, hc]
      cases hs : splitOn sep cs with
      | nil => exact absurd hs (splitOn_ne_nil sep cs)
      | cons a t =>
        rw [hs] at ih
        simpa using ih

theorem splitOn_of_not_mem (sep : Char) (l : List Char) (h : sep ∉ l) :
    splitOn sep l = [l] := by
  induction l with
  | nil => simp [splitOn]
  | cons c cs ih =>
    have h1 : c ≠ sep := fun e => h (by simp [e])
    have h2 : sep ∉ cs := fun e => h (by simp [e])
    unfold splitOn
    rw [if_neg h1, ih h2]

theorem splitOn_append (sep : Char) (a b : List Char) (h : sep ∉ a) :
    splitOn sep (a ++ sep :: b) = a :: splitOn sep b := by
  induction a with
  | nil => simp [splitOn]
  | cons c cs ih =>
    have h1 : c ≠ sep := fun e => h (by simp [e])
    have h2 : sep ∉ cs := fun e => h (by simp [e])
    show splitOn sep (c :: (cs ++ sep :: b)) = _
    rw [splitOn, if_neg h1, ih h2]

theorem splitOn_single (sep : Char) (l b : List Char) (h : splitOn sep l = [b]) :
    l = b ∧ sep ∉ l := by
  have hl := splitOn_length sep l
  rw [h] at hl
  have hc : l.count sep = 0 := by simpa using hl.symm
  have hn : sep ∉ l := List.count_eq_zero.mp hc
  rw [splitOn_of_not_mem sep l hn] at h
  exact ⟨by simpa using h, hn⟩

theorem splitOn_pair (sep : Char) (l a b : List Char) :
    splitOn sep l = [a, b] ↔ l = a ++ sep :: b ∧ sep ∉ a ∧ sep ∉ b := by
  constructor
  · intro h
    induction l generalizing a with
    | nil => simp [splitOn] at h
    | cons c cs ih =>
      unfold splitOn at h
      by_cases hc : c = sep
      · subst hc
        rw [if_pos rfl] at h
        have ha : a = [] := by
          have := congrArg List.head? h
          simpa using this.symm
        subst ha
        have hb : splitOn c cs = [b] := by simpa using h
        obtain ⟨e, hn⟩ := splitOn_single c cs b hb
        subst e
        exact ⟨rfl, by simp, hn⟩
      · rw [if_neg hc] at h
        cases hs : splitOn sep cs with
        | nil => exact absurd hs (splitOn_ne_nil sep cs)
        | cons x t =>
          rw [hs] at h
          simp only [List.cons.injEq] at h
          obtain ⟨h1, h2⟩ := h
          subst h1
          subst h2
          obtain ⟨e, na, nb⟩ := ih x hs
          refine ⟨by simp [e], ?_, nb⟩
          intro hm
          rcases List.mem_cons.mp hm with hm | hm
          · exact hc hm.symm
          · exact na hm
  · rintro ⟨e, na, nb⟩
    subst e
    rw [splitOn_append sep a b na, splitOn_of_not_mem sep b nb]

theorem Split_length (tok : String) (sep : Char) :
    (Split tok sep).length = tok.data.count sep + 1 := by
  simp [Split, splitOn_length]

theorem Split_pair (tok k v : String) (sep : Char) :
    Split tok sep = [k, v] ↔ tok.data = k.data ++ sep :: v.data ∧ sep ∉ k.data ∧ sep ∉ v.data := by
  rw [← splitOn_pair]
  unfold Split
  constructor
  · intro h
    have h2 := congrArg (List.map String.data) h
    simpa [List.map_map, Function.comp_def] using h2
  · intro h
    rw [h]
    rfl

theorem Split_form (key v : String) (sep : Char) (hk : sep ∉ key.data) (hv : sep ∉ v.data) :
    Split (key ++ String.singleton sep ++ v) sep = [key, v] := by
  rw [Split_pair]
  refine ⟨?_, hk, hv⟩
  simp [String.data_append, String.singleton]

theorem ruleValue_eq_some (key tok v : String) :
    ruleValue key tok = some v ↔ Split tok '=' = [key, v] := by
  rw [Split_pair]
  unfold ruleValue
  constructor
  · intro h
    split at h
    · rename_i hc
      obtain ⟨hcount, hpre⟩ := hc
      obtain ⟨r, hr⟩ := List.isPrefixOf_iff_prefix.mp hpre
      have hlen : (key.data ++ ['=']).length = key.length + 1 := by
        rw [List.length_append]
        rfl
      have hv : v.data = r := by
        have := (Option.some.inj h)
        rw [← this, ← hr]
        exact List.drop_left' hlen
      have hd : tok.data = key.data ++ '=' :: r := by rw [← hr]; simp
      rw [hd] at hcount
      simp only [List.count_append, List.count_cons_self] at hcount
      have c1 : key.data.count '=' = 0 := by omega
      have c2 : r.count '=' = 0 := by omega
      rw [hv]
      exact ⟨hd, List.count_eq_zero.mp c1, List.count_eq_zero.mp c2⟩
    · exact absurd h (by simp)
  · rintro ⟨hd, nk, nv⟩
    have c1 : key.data.count '=' = 0 := List.count_eq_zero.mpr nk
    have c2 : v.data.count '=' = 0 := List.count_eq_zero.mpr nv
    have hcount : tok.data.count '=' = 1 := by
      rw [hd]
      simp [List.count_append, c1, c2]
    have hpre : (key.data ++ ['=']).isPrefixOf tok.data = true := by
      apply List.isPrefixOf_iff_prefix.mpr
      exact ⟨v.data, by rw [hd]; simp⟩
    rw [if_pos ⟨hcount, hpre⟩]
    congr 1
    apply String.ext
    have hlen : (key.data ++ ['=']).length = key.length + 1 := by
      rw [List.length_append]
      rfl
    have hd2 : tok.data = (key.data ++ ['=']) ++ v.data := by rw [hd]; simp
    rw [hd2]
    exact List.drop_left' hlen

/-! ## Lemmas on maps -/

theorem mapGet_mapSet_self {α : Type} (m : GoMap α) (k : String) (v : α) :
    mapGet (mapSet m k v) k = some v := by
  simp [mapSet, mapGet]

theorem mapGet_filter_ne {α : Type} (m : GoMap α) (k k' : String) (h : k ≠ k') :
    mapGet (m.filter (fun p => decide (p.1 ≠ k))) k' = mapGet m k' := by
  induction m with
  | nil => rfl
  | cons p m ih =>
    obtain ⟨a, b⟩ := p
    have ih2 : mapGet (List.filter (fun p => !decide (p.1 = k)) m) k' = mapGet m k' := by
      simpa using ih
    by_cases ha : a = k
    · subst ha
      simp [List.filter, mapGet, h, ih2]
    · by_cases hb : a = k'
      · subst hb
        simp [List.filter, mapGet, ha]
      · simp [List.filter, mapGet, ha, hb, ih2]

theorem mapGet_mapSet_ne {α : Type} (m : GoMap α) (k k' : String) (v : α) (h : k ≠ k') :
    mapGet (mapSet m k v) k' = mapGet m k' := by
  unfold mapSet
  rw [mapGet, if_neg h]
  exact mapGet_filter_ne m k k' h

/-! ## Lemmas on the rule loop -/

theorem ruleValue_of_split (key tok k v : String) (h : Split tok '=' = [k, v]) :
    ruleValue key tok = if k = key then some v else none := by
  by_cases hk : k = key
  · subst hk
    rw [if_pos rfl]
    exact (ruleValue_eq_some _ _ _).mpr h
  · rw [if_neg hk]
    cases hr : ruleValue key tok with
    | none => rfl
    | some w =>
      have h2 := (ruleValue_eq_some _ _ _).mp hr
      rw [h] at h2
      simp only [List.cons.injEq] at h2
      exact absurd h2.1 hk

theorem ruleValue_none (key tok : String) (h : ∀ k v, Split tok '=' ≠ [k, v]) :
    ruleValue key tok = none := by
  cases hr : ruleValue key tok with
  | none => rfl
  | some w => exact absurd ((ruleValue_eq_some _ _ _).mp hr) (h _ _)

theorem applyRule_eq {Q : Type} (x : Externals Q) (c : Container Q) (tok : String) :
    applyRule x c tok = ruleEffect x c tok := by
  unfold applyRule ruleEffect
  split
  · rename_i k v h
    rw [ruleValue_of_split "image" tok k v h, ruleValue_of_split "cpu" tok k v h,
      ruleValue_of_split "memory" tok k v h]
    by_cases h1 : k = "image"
    · subst h1
      simp
    · by_cases h2 : k = "cpu"
      · subst h2
        simp
      · by_cases h3 : k = "memory"
        · subst h3
          simp
        · simp [h1, h2, h3]
  · rename_i h
    rw [ruleValue_none "image" tok h, ruleValue_none "cpu" tok h, ruleValue_none "memory" tok h]
    rfl

theorem ruleValue_excl (k1 k2 tok v : String) (h : ruleValue k1 tok = some v) (hne : k1 ≠ k2) :
    ruleValue k2 tok = none := by
  rw [ruleValue_of_split k2 tok k1 v ((ruleValue_eq_some _ _ _).mp h), if_neg hne]

theorem setRequest_ok {Q : Type} (c c' : Container Q) (n : String) (q : Q)
    (h : setRequest c n q = .ok c') :
    ∃ m, c.Resources.Requests = some m ∧
      c' = { c with Resources := { c.Resources with Requests := some (mapSet m n q) } } := by
  unfold setRequest at h
  split at h
  · exact absurd h (by simp)
  · rename_i m hm
    exact ⟨m, hm, (Except.ok.inj h).symm⟩

theorem requestOf_setRequest_self {Q : Type} (c c' : Container Q) (n : String) (q : Q)
    (h : setRequest c n q = .ok c') : requestOf c' n = some q := by
  obtain ⟨m, _, rfl⟩ := setRequest_ok c c' n q h
  simp [requestOf, mapGet_mapSet_self]

theorem requestOf_setRequest_ne {Q : Type} (c c' : Container Q) (n n' : String) (q : Q)
    (h : setRequest c n q = .ok c') (hne : n ≠ n') : requestOf c' n' = requestOf c n' := by
  obtain ⟨m, hm, rfl⟩ := setRequest_ok c c' n q h
  simp [requestOf, hm, mapGet_mapSet_ne m n n' q hne]

theorem setRequest_fields {Q : Type} (c c' : Container Q) (n : String) (q : Q)
    (h : setRequest c n q = .ok c') :
    c'.Image = c.Image ∧ c'.Env = c.Env ∧ c'.Name = c.Name := by
  obtain ⟨m, _, rfl⟩ := setRequest_ok c c' n q h
  exact ⟨rfl, rfl, rfl⟩

theorem setRequest_withEnv {Q : Type} (c : Container Q) (e : List EnvVar) (n : String) (q : Q) :
    setRequest { c with Env := e } n q =
      (setRequest c n q).map (fun c' => { c' with Env := e }) := by
  unfold setRequest
  cases c.Resources.Requests <;> rfl

theorem applyRule_withEnv {Q : Type} (x : Externals Q) (c : Container Q) (e : List EnvVar)
    (tok : String) :
    applyRule x { c with Env := e } tok =
      (applyRule x c tok).map (fun c' => { c' with Env := e }) := by
  rw [applyRule_eq, applyRule_eq]
  unfold ruleEffect
  cases ruleValue "image" tok with
  | some v => rfl
  | none =>
    cases (ruleValue "cpu" tok).bind x.ParseQuantity with
    | some q => exact setRequest_withEnv c e "cpu" q
    | none =>
      cases (ruleValue "memory" tok).bind x.ParseQuantity with
      | some q => exact setRequest_withEnv c e "memory" q
      | none => rfl

theorem applyRules_withEnv {Q : Type} (x : Externals Q) (e : List EnvVar) (rules : List String) :
    ∀ c : Container Q, applyRules x { c with Env := e } rules =
      (applyRules x c rules).map (fun c' => { c' with Env := e }) := by
  induction rules with
  | nil => intro c; rfl
  | cons tok rest ih =>
    intro c
    rw [applyRules, applyRules, applyRule_withEnv]
    cases h : applyRule x c tok with
    | error hlt => rfl
    | ok c1 => exact ih c1

theorem applyRule_image {Q : Type} (x : Externals Q) (c c' : Container Q) (tok : String)
    (h : applyRule x c tok = .ok c') :
    c'.Image = (ruleValue "image" tok).getD c.Image := by
  rw [applyRule_eq] at h
  unfold ruleEffect at h
  cases hi : ruleValue "image" tok with
  | some v =>
    rw [hi] at h
    rw [← Except.ok.inj h]
    rfl
  | none =>
    rw [hi] at h
    simp only at h
    cases hc : (ruleValue "cpu" tok).bind x.ParseQuantity with
    | some q =>
      rw [hc] at h
      exact (setRequest_fields c c' "cpu" q h).1
    | none =>
      rw [hc] at h
      simp only at h
      cases hm : (ruleValue "memory" tok).bind x.ParseQuantity with
      | some q =>
        rw [hm] at h
        exact (setRequest_fields c c' "memory" q h).1
      | none =>
        rw [hm] at h
        rw [← Except.ok.inj h]
        rfl

theorem applyRule_env {Q : Type} (x : Externals Q) (c c' : Container Q) (tok : String)
    (h : applyRule x c tok = .ok c') : c'.Env = c.Env := by
  rw [applyRule_eq] at h
  unfold ruleEffect at h
  cases hi : ruleValue "image" tok with
  | some v =>
    rw [hi] at h
    rw [← Except.ok.inj h]
  | none =>
    rw [hi] at h
    simp only at h
    cases hc : (ruleValue "cpu" tok).bind x.ParseQuantity with
    | some q =>
      rw [hc] at h
      exact (setRequest_fields c c' "cpu" q h).2.1
    | none =>
      rw [hc] at h
      simp only at h
      cases hm : (ruleValue "memory" tok).bind x.ParseQuantity with
      | some q =>
        rw [hm] at h
        exact (setRequest_fields c c' "memory" q h).2.1
      | none =>
        rw [hm] at h
        rw [← Except.ok.inj h]

theorem applyRule_cpu {Q : Type} (x : Externals Q) (c c' : Container Q) (tok : String)
    (h : applyRule x c tok = .ok c') :
    requestOf c' "cpu" = ((ruleValue "cpu" tok).bind x.ParseQuantity).or (requestOf c "cpu") := by
  rw [applyRule_eq] at h
  unfold ruleEffect at h
  cases hi : ruleValue "image" tok with
  | some v =>
    rw [hi] at h
    rw [← Except.ok.inj h, ruleValue_excl "image" "cpu" tok v hi (by decide)]
    rfl
  | none =>
    rw [hi] at h
    simp only at h
    cases hc : (ruleValue "cpu" tok).bind x.ParseQuantity with
    | some q =>
      rw [hc] at h
      rw [requestOf_setRequest_self c c' "cpu" q h]
      rfl
    | none =>
      rw [hc] at h
      simp only at h
      rw [Option.none_or]
      cases hm : (ruleValue "memory" tok).bind x.ParseQuantity with
      | some q =>
        rw [hm] at h
        exact requestOf_setRequest_ne c c' "memory" "cpu" q h (by decide)
      | none =>
        rw [hm] at h
        rw [← Except.ok.inj h]

theorem applyRule_memory {Q : Type} (x : Externals Q) (c c' : Container Q) (tok : String)
    (h : applyRule x c tok = .ok c') :
    requestOf c' "memory" =
      ((ruleValue "memory" tok).bind x.ParseQuantity).or (requestOf c "memory") := by
  rw [applyRule_eq] at h
  unfold ruleEffect at h
  cases hi : ruleValue "image" tok with
  | some v =>
    rw [hi] at h
    rw [← Except.ok.inj h, ruleValue_excl "image" "memory" tok v hi (by decide)]
    rfl
  | none =>
    rw [hi] at h
    simp only at h
    cases hc : (ruleValue "cpu" tok).bind x.ParseQuantity with
    | some q =>
      rw [hc] at h
      have hcv : ∃ v, ruleValue "cpu" tok = some v := by
        cases hv : ruleValue "cpu" tok with
        | none => rw [hv] at hc; exact absurd hc (by simp)
        | some v => exact ⟨v, rfl⟩
      obtain ⟨v, hv⟩ := hcv
      rw [ruleValue_excl "cpu" "memory" tok v hv (by decide)]
      exact requestOf_setRequest_ne c c' "cpu" "memory" q h (by decide)
    | none =>
      rw [hc] at h
      simp only at h
      cases hm : (ruleValue "memory" tok).bind x.ParseQuantity with
      | some q =>
        rw [hm] at h
        rw [requestOf_setRequest_self c c' "memory" q h]
        rfl
      | none =>
        rw [hm] at h
        rw [← Except.ok.inj h]
        rfl

theorem applyRules_image {Q : Type} (x : Externals Q) (rules : List String) :
    ∀ c c' : Container Q, applyRules x c rules = .ok c' →
      c'.Image = ((rules.filterMap (ruleValue "image")).getLast?).getD c.Image := by
  induction rules with
  | nil =>
    intro c c' h
    rw [← Except.ok.inj h]
    rfl
  | cons tok rest ih =>
    intro c c' h
    rw [applyRules] at h
    cases h1 : applyRule x c tok with
    | error hlt => rw [h1] at h; exact absurd h (by simp)
    | ok c1 =>
      rw [h1] at h
      rw [ih c1 c' h, applyRule_image x c c1 tok h1, List.filterMap_cons]
      cases ruleValue "image" tok with
      | none => rfl
      | some v => simp [List.getLast?_cons]

theorem applyRules_env {Q : Type} (x : Externals Q) (rules : List String) :
    ∀ c c' : Container Q, applyRules x c rules = .ok c' → c'.Env = c.Env := by
  induction rules with
  | nil =>
    intro c c' h
    rw [← Except.ok.inj h]
  | cons tok rest ih =>
    intro c c' h
    rw [applyRules] at h
    cases h1 : applyRule x c tok with
    | error hlt => rw [h1] at h; exact absurd h (by simp)
    | ok c1 =>
      rw [h1] at h
      rw [ih c1 c' h, applyRule_env x c c1 tok h1]

theorem last_or_cons {β : Type} (f : String → Option β) (tok : String) (rest : List String)
    (d : Option β) :
    (((tok :: rest).filterMap f).getLast?).or d = ((rest.filterMap f).getLast?).or ((f tok).or d) := by
  rw [List.filterMap_cons]
  cases f tok with
  | none => simp
  | some v =>
    simp only [List.getLast?_cons, Option.or_some]
    cases (rest.filterMap f).getLast? <;> rfl

theorem applyRules_cpu {Q : Type} (x : Externals Q) (rules : List String) :
    ∀ c c' : Container Q, applyRules x c rules = .ok c' →
      requestOf c' "cpu" =
        ((rules.filterMap (fun tok => (ruleValue "cpu" tok).bind x.ParseQuantity)).getLast?).or
          (requestOf c "cpu") := by
  induction rules with
  | nil =>
    intro c c' h
    rw [← Except.ok.inj h]
    rfl
  | cons tok rest ih =>
    intro c c' h
    rw [applyRules] at h
    cases h1 : applyRule x c tok with
    | error hlt => rw [h1] at h; exact absurd h (by simp)
    | ok c1 =>
      rw [h1] at h
      rw [ih c1 c' h, applyRule_cpu x c c1 tok h1, last_or_cons]

theorem applyRules_memory {Q : Type} (x : Externals Q) (rules : List String) :
    ∀ c c' : Container Q, applyRules x c rules = .ok c' →
      requestOf c' "memory" =
        ((rules.filterMap (fun tok => (ruleValue "memory" tok).bind x.ParseQuantity)).getLast?).or
          (requestOf c "memory") := by
  induction rules with
  | nil =>
    intro c c' h
    rw [← Except.ok.inj h]
    rfl
  | cons tok rest ih =>
    intro c c' h
    rw [applyRules] at h
    cases h1 : applyRule x c tok with
    | error hlt => rw [h1] at h; exact absurd h (by simp)
    | ok c1 =>
      rw [h1] at h
      rw [ih c1 c' h, applyRule_memory x c c1 tok h1, last_or_cons]

theorem applyRules_append {Q : Type} (x : Externals Q) (xs ys : List String) :
    ∀ c : Container Q, applyRules x c (xs ++ ys) =
      match applyRules x c xs with
      | .ok c1 => applyRules x c1 ys
      | .error h => .error h := by
  induction xs with
  | nil => intro c; rfl
  | cons tok rest ih =>
    intro c
    show applyRules x c (tok :: (rest ++ ys)) = _
    rw [applyRules, applyRules]
    cases applyRule x c tok with
    | error hlt => rfl
    | ok c1 => exact ih c1

/-! ## Bad rules change nothing -/

theorem eq_data : ("=" : String).data = ['='] := rfl

theorem ruleValue_form (key v key' : String) (w : String)
    (h : ruleValue key' (key ++ "=" ++ v) = some w) : key' = key ∧ w = v := by
  have h1 := (ruleValue_eq_some _ _ _).mp h
  obtain ⟨hd, nk, nw⟩ := (Split_pair _ _ _ _).mp h1
  unfold ruleValue at h
  split at h
  · rename_i hc
    have hcount := hc.1
    simp only [String.data_append, eq_data, List.count_append, List.count_cons_self,
      List.count_nil] at hcount
    have c1 : key.data.count '=' = 0 := by omega
    have c2 : v.data.count '=' = 0 := by omega
    have h2 : Split (key ++ "=" ++ v) '=' = [key, v] := by
      rw [Split_pair]
      exact ⟨by simp [String.data_append, eq_data], List.count_eq_zero.mp c1,
        List.count_eq_zero.mp c2⟩
    rw [h2] at h1
    simp only [List.cons.injEq, and_true] at h1
    exact ⟨h1.1.symm, h1.2.symm⟩
  · exact absurd h (by simp)

theorem ruleValue_malformed (key tok : String) (h : tok.data.count '=' ≠ 1) :
    ruleValue key tok = none := by
  unfold ruleValue
  rw [if_neg]
  exact fun hc => h hc.1

theorem applyRule_bad {Q : Type} (x : Externals Q) (c : Container Q) (tok : String)
    (hb : BadRule x tok) : applyRule x c tok = .ok c := by
  rw [applyRule_eq]
  unfold ruleEffect
  cases hb with
  | malformed _ h =>
    rw [ruleValue_malformed "image" tok h, ruleValue_malformed "cpu" tok h,
      ruleValue_malformed "memory" tok h]
    rfl
  | unrecognized key v h =>
    have n1 : ruleValue "image" (key ++ "=" ++ v) = none := by
      cases hr : ruleValue "image" (key ++ "=" ++ v) with
      | none => rfl
      | some w => exact absurd (ruleValue_form key v "image" w hr).1.symm h.1
    have n2 : ruleValue "cpu" (key ++ "=" ++ v) = none := by
      cases hr : ruleValue "cpu" (key ++ "=" ++ v) with
      | none => rfl
      | some w => exact absurd (ruleValue_form key v "cpu" w hr).1.symm h.2.1
    have n3 : ruleValue "memory" (key ++ "=" ++ v) = none := by
      cases hr : ruleValue "memory" (key ++ "=" ++ v) with
      | none => rfl
      | some w => exact absurd (ruleValue_form key v "memory" w hr).1.symm h.2.2
    rw [n1, n2, n3]
    rfl
  | unparsable key v hk hv =>
    have n1 : ruleValue "image" (key ++ "=" ++ v) = none := by
      cases hr : ruleValue "image" (key ++ "=" ++ v) with
      | none => rfl
      | some w =>
        have e := (ruleValue_form key v "image" w hr).1
        rcases hk with hk | hk <;> (rw [hk] at e; exact absurd e (by decide))
    have n2 : (ruleValue "cpu" (key ++ "=" ++ v)).bind x.ParseQuantity = none := by
      cases hr : ruleValue "cpu" (key ++ "=" ++ v) with
      | none => rfl
      | some w =>
        rw [(ruleValue_form key v "cpu" w hr).2]
        exact hv
    have n3 : (ruleValue "memory" (key ++ "=" ++ v)).bind x.ParseQuantity = none := by
      cases hr : ruleValue "memory" (key ++ "=" ++ v) with
      | none => rfl
      | some w =>
        rw [(ruleValue_form key v "memory" w hr).2]
        exact hv
    rw [n1, n2, n3]

theorem applyRules_bad {Q : Type} (x : Externals Q) (c : Container Q) (rules : List String)
    (hb : ∀ tok ∈ rules, BadRule x tok) : applyRules x c rules = .ok c := by
  induction rules with
  | nil => rfl
  | cons tok rest ih =>
    rw [applyRules, applyRule_bad x c tok (hb tok (by simp))]
    exact ih (fun t ht => hb t (by simp [ht]))

theorem applyRules_insert {Q : Type} (x : Externals Q) (c : Container Q) (xs ys : List String)
    (b : String) (hb : BadRule x b) :
    applyRules x c (xs ++ b :: ys) = applyRules x c (xs ++ ys) := by
  rw [applyRules_append, applyRules_append]
  cases applyRules x c xs with
  | error h => rfl
  | ok c1 =>
    show applyRules x c1 (b :: ys) = _
    rw [applyRules, applyRule_bad x c1 b hb]

/-! ## The derived job -/

theorem deriveJob_ok {Q : Type} (x : Externals Q) (tpl org pl uuid : String)
    (rules : List String) (j : Job Q) (h : deriveJob x tpl org pl uuid rules = .ok j) :
    ∃ t c0 rest c, x.Unmarshal tpl = some t ∧ t.Spec.Template.Spec.Containers = c0 :: rest ∧
      applyRules x c0 rules = .ok c ∧
      j = { ObjectMeta := { Name := "buildkite-agent-" ++ uuid, Labels := jobLabels org pl },
            Spec := { Template :=
              { ObjectMeta := { t.Spec.Template.ObjectMeta with Labels := jobLabels org pl },
                Spec := { Containers :=
                  { c with Env := c0.Env ++ [tagsVar rules] } :: rest } } } } := by
  unfold deriveJob at h
  cases hU : x.Unmarshal tpl with
  | none => rw [hU] at h; exact absurd h (by simp)
  | some t =>
    rw [hU] at h
    simp only at h
    cases hC : t.Spec.Template.Spec.Containers with
    | nil => rw [hC] at h; exact absurd h (by simp)
    | cons c0 rest =>
      rw [hC] at h
      simp only at h
      rw [applyRules_withEnv] at h
      cases hA : applyRules x c0 rules with
      | error hlt => rw [hA] at h; exact absurd h (by simp [Except.map])
      | ok c =>
        rw [hA] at h
        simp only [Except.map] at h
        exact ⟨t, c0, rest, c, rfl, hC, hA, (Except.ok.inj h).symm⟩

theorem deriveJob_of {Q : Type} (x : Externals Q) (tpl org pl uuid : String)
    (rules : List String) (t : Job Q) (c0 c : Container Q) (rest : List (Container Q))
    (hU : x.Unmarshal tpl = some t) (hC : t.Spec.Template.Spec.Containers = c0 :: rest)
    (hA : applyRules x c0 rules = .ok c) :
    deriveJob x tpl org pl uuid rules =
      .ok { ObjectMeta := { Name := "buildkite-agent-" ++ uuid, Labels := jobLabels org pl },
            Spec := { Template :=
              { ObjectMeta := { t.Spec.Template.ObjectMeta with Labels := jobLabels org pl },
                Spec := { Containers :=
                  { c with Env := c0.Env ++ [tagsVar rules] } :: rest } } } } := by
  unfold deriveJob
  rw [hU]
  simp only
  rw [hC]
  simp only
  rw [applyRules_withEnv, hA]
  rfl

theorem deriveJob_halt {Q : Type} (x : Externals Q) (tpl org pl uuid : String)
    (rules : List String) (t : Job Q) (c0 : Container Q) (rest : List (Container Q)) (hlt : Halt)
    (hU : x.Unmarshal tpl = some t) (hC : t.Spec.Template.Spec.Containers = c0 :: rest)
    (hA : applyRules x c0 rules = .error hlt) :
    deriveJob x tpl org pl uuid rules = .error hlt := by
  unfold deriveJob
  rw [hU]
  simp only
  rw [hC]
  simp only
  rw [applyRules_withEnv, hA]
  rfl

theorem jobLabels_eq (org pl : String) :
    jobLabels org pl =
      [("kubekite-pipeline", pl), ("kubekite-org", org), ("kubekite-managed", "true")] := by
  simp [jobLabels, mapSet]

theorem Split_three (a b c : String) (sep : Char) (ha : sep ∉ a.data) (hb : sep ∉ b.data)
    (hc : sep ∉ c.data) :
    Split (a ++ String.singleton sep ++ b ++ String.singleton sep ++ c) sep = [a, b, c] := by
  unfold Split
  have e : (a ++ String.singleton sep ++ b ++ String.singleton sep ++ c).data =
      a.data ++ sep :: (b.data ++ sep :: c.data) := by
    simp [String.data_append, String.singleton]
  rw [e, splitOn_append sep _ _ ha, splitOn_append sep _ _ hb, splitOn_of_not_mem sep _ hc]
  rfl

theorem selector_split (org pl : String) (ho : ',' ∉ org.data) (hp : ',' ∉ pl.data) :
    Split (selector org pl) ',' =
      ["kubekite-managed=true", "kubekite-org=" ++ org, "kubekite-pipeline=" ++ pl] := by
  have e : selector org pl =
      "kubekite-managed=true" ++ String.singleton ',' ++ ("kubekite-org=" ++ org) ++
        String.singleton ',' ++ ("kubekite-pipeline=" ++ pl) := by
    apply String.ext
    simp [selector, String.data_append, String.singleton]
  rw [e]
  apply Split_three
  · decide
  · rw [String.data_append]
    intro hm
    rcases List.mem_append.mp hm with hm | hm
    · exact absurd hm (by decide)
    · exact ho hm
  · rw [String.data_append]
    intro hm
    rcases List.mem_append.mp hm with hm | hm
    · exact absurd hm (by decide)
    · exact hp hm

theorem selectorMatches_iff (org pl : String) (labels : GoMap String)
    (ho : ',' ∉ org.data) (ho' : '=' ∉ org.data) (hp : ',' ∉ pl.data) (hp' : '=' ∉ pl.data) :
    selectorMatches (selector org pl) labels = true ↔
      mapGet labels "kubekite-managed" = some "true" ∧
      mapGet labels "kubekite-org" = some org ∧
      mapGet labels "kubekite-pipeline" = some pl := by
  have e1 : Split "kubekite-managed=true" '=' = ["kubekite-managed", "true"] := by decide
  have e2 : Split ("kubekite-org=" ++ org) '=' = ["kubekite-org", org] :=
    Split_form "kubekite-org" org '=' (by decide) ho'
  have e3 : Split ("kubekite-pipeline=" ++ pl) '=' = ["kubekite-pipeline", pl] :=
    Split_form "kubekite-pipeline" pl '=' (by decide) hp'
  unfold selectorMatches
  rw [selector_split org pl ho hp]
  simp only [List.all_cons, List.all_nil, e1, e2, e3, Bool.and_true, Bool.and_eq_true,
    decide_eq_true_eq]

/-- C1, as the code has it. Every job that `LaunchJob` derives carries the labels
`kubekite-managed="true"`, `kubekite-org=<org>` and `kubekite-pipeline=<pipeline>` on the
job object and on its pod template.  When the organisation and the pipeline contain
neither `,` nor `=`, the selector of the reconciler built from the same organisation and
pipeline, read as comma-separated `key=value` requirements, matches the labels of the job
and of its pod template, and it matches the labels of a job derived for an organisation
`org'` and a pipeline `pl'` exactly when these are the same organisation and pipeline. -/
theorem C1_ownership_labels {Q : Type} (x : Externals Q) (tpl org pl uuid : String)
    (rules : List String) (j : Job Q) (h : deriveJob x tpl org pl uuid rules = .ok j) :
    (∀ p ∈ [("kubekite-managed", "true"), ("kubekite-org", org), ("kubekite-pipeline", pl)],
        mapGet j.ObjectMeta.Labels p.1 = some p.2 ∧
        mapGet j.Spec.Template.ObjectMeta.Labels p.1 = some p.2) ∧
      (',' ∉ org.data → '=' ∉ org.data → ',' ∉ pl.data → '=' ∉ pl.data →
        selectorMatches (selector org pl) j.ObjectMeta.Labels = true ∧
        selectorMatches (selector org pl) j.Spec.Template.ObjectMeta.Labels = true ∧
        ∀ (tpl' org' pl' uuid' : String) (rules' : List String) (j' : Job Q),
          deriveJob x tpl' org' pl' uuid' rules' = .ok j' →
          ((selectorMatches (selector org pl) j'.ObjectMeta.Labels = true ↔
              org' = org ∧ pl' = pl) ∧
            (selectorMatches (selector org pl) j'.Spec.Template.ObjectMeta.Labels = true ↔
              org' = org ∧ pl' = pl))) := by
  obtain ⟨t, c0, rest, c, _, _, _, rfl⟩ := deriveJob_ok x tpl org pl uuid rules j h
  have hown : ∀ o p : String,
      (mapGet (jobLabels o p) "kubekite-managed" = some "true" ∧
        mapGet (jobLabels o p) "kubekite-org" = some org ∧
        mapGet (jobLabels o p) "kubekite-pipeline" = some pl) ↔ o = org ∧ p = pl := by
    intro o p
    simp [jobLabels_eq, mapGet]
  constructor
  · intro p hp
    simp only [jobLabels_eq]
    simp only [List.mem_cons, List.mem_singleton, List.not_mem_nil, or_false] at hp
    rcases hp with rfl | rfl | rfl <;> simp [mapGet]
  · intro ho ho' hp hp'
    have hself : selectorMatches (selector org pl) (jobLabels org pl) = true :=
      (selectorMatches_iff org pl _ ho ho' hp hp').mpr ((hown org pl).mpr ⟨rfl, rfl⟩)
    refine ⟨hself, hself, ?_⟩
    intro tpl' org' pl' uuid' rules' j' h'
    obtain ⟨_, _, _, _, _, _, _, rfl⟩ := deriveJob_ok x tpl' org' pl' uuid' rules' j' h'
    have hiff := (selectorMatches_iff org pl (jobLabels org' pl') ho ho' hp hp').trans
      (hown org' pl')
    exact ⟨hiff, hiff⟩

/-- C2. Two queue entries with the same identifier get the same job name from the
derivation of `LaunchJob`, whatever their rule tokens and whatever the template, the
organisation and the pipeline: the name is `buildkite-agent-` followed by the identifier. -/
theorem C2_name_deterministic {Q : Type} (x x' : Externals Q)
    (tpl tpl' org org' pl pl' uuid : String) (rules rules' : List String) (j j' : Job Q)
    (h : deriveJob x tpl org pl uuid rules = .ok j)
    (h' : deriveJob x' tpl' org' pl' uuid rules' = .ok j') :
    j.ObjectMeta.Name = "buildkite-agent-" ++ uuid ∧ j'.ObjectMeta.Name = j.ObjectMeta.Name := by
  obtain ⟨_, _, _, _, _, _, _, rfl⟩ := deriveJob_ok x tpl org pl uuid rules j h
  obtain ⟨_, _, _, _, _, _, _, rfl⟩ := deriveJob_ok x' tpl' org' pl' uuid rules' j' h'
  exact ⟨rfl, rfl⟩

theorem lastImage_append (xs ys : List String) (v d : String) (hv : '=' ∉ v.data)
    (hys : ∀ tok ∈ ys, ruleValue "image" tok = none) :
    lastImage (xs ++ ("image" ++ "=" ++ v) :: ys) d = v := by
  have h1 : ruleValue "image" ("image" ++ "=" ++ v) = some v :=
    (ruleValue_eq_some _ _ _).mpr (Split_form "image" v '=' (by decide) hv)
  have h2 : ys.filterMap (ruleValue "image") = [] := by
    rw [List.filterMap_eq_nil_iff]
    exact hys
  unfold lastImage
  rw [List.filterMap_append, List.filterMap_cons, h1]
  simp only
  rw [h2, List.getLast?_append]
  rfl

theorem lastRequest_append {Q : Type} (x : Externals Q) (name : String) (xs ys : List String)
    (v : String) (q : Q) (d : Option Q) (hn : '=' ∉ name.data) (hv : '=' ∉ v.data)
    (hq : x.ParseQuantity v = some q)
    (hys : ∀ tok ∈ ys, (ruleValue name tok).bind x.ParseQuantity = none) :
    lastRequest x name (xs ++ (name ++ "=" ++ v) :: ys) d = some q := by
  have h1 : ruleValue name (name ++ "=" ++ v) = some v :=
    (ruleValue_eq_some _ _ _).mpr (Split_form name v '=' hn hv)
  have h2 : ys.filterMap (fun tok => (ruleValue name tok).bind x.ParseQuantity) = [] := by
    rw [List.filterMap_eq_nil_iff]
    exact hys
  unfold lastRequest
  rw [List.filterMap_append, List.filterMap_cons, h1]
  simp only [Option.some_bind, hq]
  rw [h2, List.getLast?_append]
  rfl

/-- Last write wins, where a job is derived. In every job derived from a template with a
primary container, the image of the
primary container is the value of the last token of the form `image=v` with exactly one
`=`, or the image of the template when there is none, and its cpu (memory) request is the
parsed quantity of the last `cpu=v` (`memory=v`) token whose value parses, or the request of
the template when there is none.  In particular a token `image=v`, or a `cpu=v` or
`memory=v` token that parses, decides the value when no later token of that key follows it,
whatever precedes it. -/
theorem derived_last_write_wins {Q : Type} (x : Externals Q) (tpl org pl uuid : String)
    (rules : List String) (t j : Job Q) (c0 : Container Q) (rest : List (Container Q))
    (hU : x.Unmarshal tpl = some t) (hC : t.Spec.Template.Spec.Containers = c0 :: rest)
    (h : deriveJob x tpl org pl uuid rules = .ok j) :
    ∃ c, primaryContainer j = some c ∧
      c.Image = lastImage rules c0.Image ∧
      requestOf c "cpu" = lastRequest x "cpu" rules (requestOf c0 "cpu") ∧
      requestOf c "memory" = lastRequest x "memory" rules (requestOf c0 "memory") ∧
      (∀ xs ys v, rules = xs ++ ("image" ++ "=" ++ v) :: ys → '=' ∉ v.data →
        (∀ tok ∈ ys, ruleValue "image" tok = none) → c.Image = v) ∧
      (∀ name xs ys v q, name = "cpu" ∨ name = "memory" →
        rules = xs ++ (name ++ "=" ++ v) :: ys → '=' ∉ v.data → x.ParseQuantity v = some q →
        (∀ tok ∈ ys, (ruleValue name tok).bind x.ParseQuantity = none) →
        requestOf c name = some q) := by
  obtain ⟨t', c0', rest', c, hU', hC', hA, rfl⟩ := deriveJob_ok x tpl org pl uuid rules j h
  rw [hU] at hU'
  cases Option.some.inj hU'
  rw [hC] at hC'
  cases hC'
  have hI := applyRules_image x rules c0 c hA
  have hcpu := applyRules_cpu x rules c0 c hA
  have hmem := applyRules_memory x rules c0 c hA
  refine ⟨{ c with Env := c0.Env ++ [tagsVar rules] }, rfl, hI, hcpu, hmem, ?_, ?_⟩
  · intro xs ys v hr hv hys
    show c.Image = v
    rw [hI, hr]
    exact lastImage_append xs ys v c0.Image hv hys
  · intro name xs ys v q hn hr hv hq hys
    rcases hn with rfl | rfl
    · show requestOf c "cpu" = some q
      rw [hcpu, hr]
      exact lastRequest_append x "cpu" xs ys v q _ (by decide) hv hq hys
    · show requestOf c "memory" = some q
      rw [hmem, hr]
      exact lastRequest_append x "memory" xs ys v q _ (by decide) hv hq hys

/-- C4. For every template with a primary container and every identifier, the derivation
succeeds when all the rule tokens are bad rules (malformed, of an unrecognized key, or
cpu or memory tokens whose value does not parse), and the image and the resource requests
of the derived primary container are then those of the template; `badtoken`, `image=a=b`
and `zone=us-east` are such tokens.  Inserting a bad rule anywhere in a rule list changes
neither the outcome of the derivation nor the derived image and resource requests. -/
theorem C4_bad_rules_ignored {Q : Type} (x : Externals Q) (tpl org pl uuid : String)
    (t : Job Q) (c0 : Container Q) (rest : List (Container Q))
    (hU : x.Unmarshal tpl = some t) (hC : t.Spec.Template.Spec.Containers = c0 :: rest) :
    (∀ rules, (∀ tok ∈ rules, BadRule x tok) →
      ∃ j c, deriveJob x tpl org pl uuid rules = .ok j ∧ primaryContainer j = some c ∧
        c.Image = c0.Image ∧ c.Resources = c0.Resources) ∧
    (BadRule x "badtoken" ∧ BadRule x "image=a=b" ∧ BadRule x "zone=us-east") ∧
    (∀ xs ys b, BadRule x b →
      (deriveJob x tpl org pl uuid (xs ++ b :: ys)).map imageAndResources =
        (deriveJob x tpl org pl uuid (xs ++ ys)).map imageAndResources) := by
  refine ⟨?_, ⟨?_, ?_, ?_⟩, ?_⟩
  · intro rules hb
    have hA := applyRules_bad x c0 rules hb
    exact ⟨_, _, deriveJob_of x tpl org pl uuid rules t c0 c0 rest hU hC hA, rfl, rfl, rfl⟩
  · exact BadRule.malformed _ (by decide)
  · exact BadRule.malformed _ (by decide)
  · exact BadRule.unrecognized "zone" "us-east" (by decide)
  · intro xs ys b hb
    have hI := applyRules_insert x c0 xs ys b hb
    cases hA : applyRules x c0 (xs ++ ys) with
    | error hlt =>
      rw [hA] at hI
      rw [deriveJob_halt x tpl org pl uuid _ t c0 rest hlt hU hC hI,
        deriveJob_halt x tpl org pl uuid _ t c0 rest hlt hU hC hA]
    | ok c =>
      rw [hA] at hI
      rw [deriveJob_of x tpl org pl uuid _ t c0 c rest hU hC hI,
        deriveJob_of x tpl org pl uuid _ t c0 c rest hU hC hA]
      rfl

/-- The agent tags, where a job is derived. In every job derived from a template with a
primary container, the environment of
the primary container is the environment of the template container followed by exactly one
variable, `BUILDKITE_AGENT_TAGS`, whose value is the rule tokens of the entry joined with
`,` in their order, none left out; it is the empty string when there are no tokens. -/
theorem derived_agent_tags {Q : Type} (x : Externals Q) (tpl org pl uuid : String)
    (rules : List String) (t j : Job Q) (c0 : Container Q) (rest : List (Container Q))
    (hU : x.Unmarshal tpl = some t) (hC : t.Spec.Template.Spec.Containers = c0 :: rest)
    (h : deriveJob x tpl org pl uuid rules = .ok j) :
    ∃ c, primaryContainer j = some c ∧
      c.Env = c0.Env ++ [{ Name := "BUILDKITE_AGENT_TAGS",
                           Value := String.intercalate "," rules, ValueFrom := none }] ∧
      (rules = [] → c.Env = c0.Env ++ [{ Name := "BUILDKITE_AGENT_TAGS", Value := "",
                                          ValueFrom := none }]) := by
  obtain ⟨t', c0', rest', c, hU', hC', hA, rfl⟩ := deriveJob_ok x tpl org pl uuid rules j h
  rw [hU] at hU'
  cases Option.some.inj hU'
  rw [hC] at hC'
  cases hC'
  refine ⟨{ c with Env := c0.Env ++ [tagsVar rules] }, rfl, rfl, ?_⟩
  intro hr
  subst hr
  rfl

/-! ## The launch sequence -/

theorem LaunchJob_found {Q σ : Type} (x : Externals Q) (jobs : JobInterface Q σ)
    (k : KubeJobManager Q) (w : Cluster Q σ) (job : BuildkiteJob) (uuid : String) (t r : Job Q)
    (hid : job.ID = some uuid)
    (hd : deriveJob x k.jobTemplate k.org k.pipeline uuid job.AgentQueryRules = .ok t)
    (hg : (jobs.Get w.state k.kubeNamespace t.ObjectMeta.Name).1 = .ok r) :
    LaunchJob x jobs k w job =
      (.ok none, k,
        { state := (jobs.Get w.state k.kubeNamespace t.ObjectMeta.Name).2,
          calls := w.calls ++ [Call.get k.kubeNamespace t.ObjectMeta.Name] }) := by
  unfold LaunchJob
  rw [hid]
  simp only
  rw [hd]
  simp only
  rw [hg]

theorem LaunchJob_missing {Q σ : Type} (x : Externals Q) (jobs : JobInterface Q σ)
    (k : KubeJobManager Q) (w : Cluster Q σ) (job : BuildkiteJob) (uuid : String) (t : Job Q)
    (e : GetError) (hid : job.ID = some uuid)
    (hd : deriveJob x k.jobTemplate k.org k.pipeline uuid job.AgentQueryRules = .ok t)
    (hg : (jobs.Get w.state k.kubeNamespace t.ObjectMeta.Name).1 = .error e) :
    LaunchJob x jobs k w job =
      ((match (jobs.Create (jobs.Get w.state k.kubeNamespace t.ObjectMeta.Name).2
                  k.kubeNamespace t).1.2 with
        | some err => .ok (some ("could not launch job: " ++ err))
        | none => .ok none),
       { k with Jobs := mapSet (mapSet (mapSet k.Jobs uuid (emptyJob Q)) uuid t) uuid
                          (jobs.Create (jobs.Get w.state k.kubeNamespace t.ObjectMeta.Name).2
                            k.kubeNamespace t).1.1 },
       { state := (jobs.Create (jobs.Get w.state k.kubeNamespace t.ObjectMeta.Name).2
            k.kubeNamespace t).2,
         calls := w.calls ++ [Call.get k.kubeNamespace t.ObjectMeta.Name] ++
            [Call.create k.kubeNamespace t] }) := by
  unfold LaunchJob
  rw [hid]
  simp only
  rw [hd]
  simp only
  rw [hg]
  simp only
  cases (jobs.Create (jobs.Get w.state k.kubeNamespace t.ObjectMeta.Name).2
    k.kubeNamespace t).1.2 <;> rfl

theorem find_named_append {Q : Type} (s : List (Job Q)) (t : Job Q)
    (h : s.any (named t.ObjectMeta.Name) = false) :
    (s ++ [t]).find? (named t.ObjectMeta.Name) = some t := by
  have h1 : s.find? (named t.ObjectMeta.Name) = none := by
    rw [List.find?_eq_none]
    intro j hj hn
    have : s.any (named t.ObjectMeta.Name) = true := List.any_eq_true.mpr ⟨j, hj, hn⟩
    rw [h] at this
    exact absurd this (by simp)
  rw [List.find?_append, h1]
  simp [List.find?, named]

theorem find_named_none {Q : Type} (s : List (Job Q)) (name : String)
    (h : s.any (named name) = false) : s.find? (named name) = none := by
  rw [List.find?_eq_none]
  intro j hj hn
  have : s.any (named name) = true := List.any_eq_true.mpr ⟨j, hj, hn⟩
  rw [h] at this
  exact absurd this (by simp)

theorem setRequest_some {Q : Type} (c : Container Q) (m : GoMap Q) (n : String) (q : Q)
    (h : c.Resources.Requests = some m) :
    setRequest c n q =
      .ok { c with Resources := { c.Resources with Requests := some (mapSet m n q) } } := by
  unfold setRequest
  rw [h]

theorem applyRule_total {Q : Type} (x : Externals Q) (c : Container Q) (tok : String)
    (h : c.Resources.Requests = none →
      (ruleValue "cpu" tok).bind x.ParseQuantity = none ∧
      (ruleValue "memory" tok).bind x.ParseQuantity = none) :
    ∃ c1, applyRule x c tok = .ok c1 ∧
      (c1.Resources.Requests = none → c.Resources.Requests = none) := by
  rw [applyRule_eq]
  unfold ruleEffect
  cases ruleValue "image" tok with
  | some v => exact ⟨_, rfl, fun h1 => h1⟩
  | none =>
    simp only
    cases hc : (ruleValue "cpu" tok).bind x.ParseQuantity with
    | some q =>
      simp only
      cases hR : c.Resources.Requests with
      | none =>
        have := (h hR).1
        rw [hc] at this
        exact absurd this (by simp)
      | some m =>
        rw [setRequest_some c m "cpu" q hR]
        exact ⟨_, rfl, fun h1 => absurd h1 (by simp)⟩
    | none =>
      simp only
      cases hm : (ruleValue "memory" tok).bind x.ParseQuantity with
      | some q =>
        simp only
        cases hR : c.Resources.Requests with
        | none =>
          have := (h hR).2
          rw [hm] at this
          exact absurd this (by simp)
        | some m =>
          rw [setRequest_some c m "memory" q hR]
          exact ⟨_, rfl, fun h1 => absurd h1 (by simp)⟩
      | none => exact ⟨_, rfl, fun h1 => h1⟩

theorem applyRules_total {Q : Type} (x : Externals Q) (rules : List String) :
    ∀ c : Container Q,
      (c.Resources.Requests = none → ∀ tok ∈ rules,
        (ruleValue "cpu" tok).bind x.ParseQuantity = none ∧
        (ruleValue "memory" tok).bind x.ParseQuantity = none) →
      ∃ c', applyRules x c rules = .ok c' := by
  induction rules with
  | nil => intro c _; exact ⟨c, rfl⟩
  | cons tok rest ih =>
    intro c h
    obtain ⟨c1, h1, hR⟩ := applyRule_total x c tok (fun hn => h hn tok (by simp))
    rw [applyRules, h1]
    exact ih c1 (fun hn t ht => h (hR hn) t (by simp [ht]))

theorem LaunchJob_returns {Q σ : Type} (x : Externals Q) (jobs : JobInterface Q σ)
    (k : KubeJobManager Q) (w : Cluster Q σ) (job : BuildkiteJob) (uuid : String) (t : Job Q)
    (hid : job.ID = some uuid)
    (hd : deriveJob x k.jobTemplate k.org k.pipeline uuid job.AgentQueryRules = .ok t) :
    ∃ e, (LaunchJob x jobs k w job).1 = .ok e := by
  cases hg : (jobs.Get w.state k.kubeNamespace t.ObjectMeta.Name).1 with
  | ok r =>
    rw [LaunchJob_found x jobs k w job uuid t r hid hd hg]
    exact ⟨none, rfl⟩
  | error e =>
    rw [LaunchJob_missing x jobs k w job uuid t e hid hd hg]
    simp only
    cases (jobs.Create (jobs.Get w.state k.kubeNamespace t.ObjectMeta.Name).2
      k.kubeNamespace t).1.2 with
    | none => exact ⟨none, rfl⟩
    | some err => exact ⟨_, rfl⟩

theorem LaunchJob_halt {Q σ : Type} (x : Externals Q) (jobs : JobInterface Q σ)
    (k : KubeJobManager Q) (w : Cluster Q σ) (job : BuildkiteJob) (uuid : String) (hlt : Halt)
    (hid : job.ID = some uuid)
    (hd : deriveJob x k.jobTemplate k.org k.pipeline uuid job.AgentQueryRules = .error hlt) :
    LaunchJob x jobs k w job = (.error hlt, k, w) := by
  unfold LaunchJob
  rw [hid]
  simp only
  rw [hd]

/-- The method `LaunchJob` panics on an entry without identifier (line 82). -/
theorem LaunchJob_panics_without_identifier {Q σ : Type} (x : Externals Q)
    (jobs : JobInterface Q σ) (k : KubeJobManager Q) (w : Cluster Q σ) (job : BuildkiteJob)
    (hid : job.ID = none) :
    (LaunchJob x jobs k w job).1 =
      .error (.panic "invalid memory address or nil pointer dereference") := by
  unfold LaunchJob
  rw [hid]

/-- The method `LaunchJob` panics on a template that decodes as a job without containers (line 98). -/
theorem LaunchJob_panics_without_container {Q σ : Type} (x : Externals Q)
    (jobs : JobInterface Q σ) (k : KubeJobManager Q) (w : Cluster Q σ) (job : BuildkiteJob)
    (uuid : String) (t : Job Q) (hid : job.ID = some uuid)
    (hU : x.Unmarshal k.jobTemplate = some t) (hC : t.Spec.Template.Spec.Containers = []) :
    (LaunchJob x jobs k w job).1 = .error (.panic "index out of range [0] with length 0") := by
  have hd : deriveJob x k.jobTemplate k.org k.pipeline uuid job.AgentQueryRules =
      .error (.panic "index out of range [0] with length 0") := by
    unfold deriveJob
    rw [hU]
    simp only
    rw [hC]
  rw [LaunchJob_halt x jobs k w job uuid _ hid hd]

/-- The method `LaunchJob` panics when the first rule token is a `cpu` or `memory` token that parses
and the primary container of the template declares no resource requests (lines 114, 119). -/
theorem LaunchJob_panics_on_nil_requests {Q σ : Type} (x : Externals Q)
    (jobs : JobInterface Q σ) (k : KubeJobManager Q) (w : Cluster Q σ) (job : BuildkiteJob)
    (uuid name v : String) (q : Q) (more : List String) (t : Job Q) (c0 : Container Q)
    (rest : List (Container Q)) (hid : job.ID = some uuid)
    (hU : x.Unmarshal k.jobTemplate = some t)
    (hC : t.Spec.Template.Spec.Containers = c0 :: rest)
    (hR : c0.Resources.Requests = none) (hn : name = "cpu" ∨ name = "memory")
    (hv : '=' ∉ v.data) (hq : x.ParseQuantity v = some q)
    (hr : job.AgentQueryRules = (name ++ "=" ++ v) :: more) :
    (LaunchJob x jobs k w job).1 = .error (.panic "assignment to entry in nil map") := by
  have hA : applyRules x c0 job.AgentQueryRules =
      .error (.panic "assignment to entry in nil map") := by
    rw [hr, applyRules, applyRule_eq]
    unfold ruleEffect
    rcases hn with rfl | rfl
    · have h1 : ruleValue "cpu" ("cpu" ++ "=" ++ v) = some v :=
        (ruleValue_eq_some _ _ _).mpr (Split_form "cpu" v '=' (by decide) hv)
      rw [ruleValue_excl "cpu" "image" _ v h1 (by decide), h1]
      simp only [Option.some_bind, hq, setRequest, hR]
    · have h1 : ruleValue "memory" ("memory" ++ "=" ++ v) = some v :=
        (ruleValue_eq_some _ _ _).mpr (Split_form "memory" v '=' (by decide) hv)
      rw [ruleValue_excl "memory" "image" _ v h1 (by decide),
        ruleValue_excl "memory" "cpu" _ v h1 (by decide), h1]
      simp only [Option.some_bind, Option.none_bind, hq, setRequest, hR]
  rw [LaunchJob_halt x jobs k w job uuid _ hid
    (deriveJob_halt x _ _ _ uuid _ t c0 rest _ hU hC hA)]

theorem mapGet_registry_ne {α : Type} (m : GoMap α) (u id : String) (a b c : α) (h : id ≠ u) :
    mapGet (mapSet (mapSet (mapSet m u a) u b) u c) id = mapGet m id := by
  have h' : u ≠ id := fun e => h e.symm
  rw [mapGet_mapSet_ne _ u id c h', mapGet_mapSet_ne _ u id b h', mapGet_mapSet_ne _ u id a h']

/-- C6. Over the cluster that is a store of jobs by name, two calls of `LaunchJob` in
sequence for the same entry, begun where the store holds no job of the derived name, issue
exactly one create call: the first call looks up, creates and returns success, the second
finds the job, returns success, issues only its lookup and leaves the manager with its
registry, and the store, as the first call left them. -/
theorem C6_launch_twice_creates_once {Q : Type} (x : Externals Q) (k : KubeJobManager Q)
    (s : List (Job Q)) (calls0 : List (Call Q)) (job : BuildkiteJob) (uuid : String) (t : Job Q)
    (hid : job.ID = some uuid)
    (hd : deriveJob x k.jobTemplate k.org k.pipeline uuid job.AgentQueryRules = .ok t)
    (hfree : s.any (named t.ObjectMeta.Name) = false) :
    (LaunchJob x (storeJobs Q) k ⟨s, calls0⟩ job).1 = .ok none ∧
    (LaunchJob x (storeJobs Q) k ⟨s, calls0⟩ job).2.2.calls =
      calls0 ++ [Call.get k.kubeNamespace t.ObjectMeta.Name, Call.create k.kubeNamespace t] ∧
    (LaunchJob x (storeJobs Q) k ⟨s, calls0⟩ job).2.2.state = s ++ [t] ∧
    (LaunchJob x (storeJobs Q) (LaunchJob x (storeJobs Q) k ⟨s, calls0⟩ job).2.1
      (LaunchJob x (storeJobs Q) k ⟨s, calls0⟩ job).2.2 job) =
      (.ok none, (LaunchJob x (storeJobs Q) k ⟨s, calls0⟩ job).2.1,
        ⟨s ++ [t], calls0 ++ [Call.get k.kubeNamespace t.ObjectMeta.Name,
          Call.create k.kubeNamespace t, Call.get k.kubeNamespace t.ObjectMeta.Name]⟩) ∧
    ((calls0 ++ [Call.get k.kubeNamespace t.ObjectMeta.Name,
        Call.create k.kubeNamespace t, Call.get k.kubeNamespace t.ObjectMeta.Name]).filter
      isCreate).length = (calls0.filter isCreate).length + 1 := by
  have hg : ((storeJobs Q).Get s k.kubeNamespace t.ObjectMeta.Name) =
      (.error GetError.notFound, s) := by
    simp only [storeJobs, find_named_none s _ hfree]
  have hc : (storeJobs Q).Create s k.kubeNamespace t = ((t, none), s ++ [t]) := by
    simp only [storeJobs, hfree]
    rfl
  have h1 : LaunchJob x (storeJobs Q) k ⟨s, calls0⟩ job =
      (.ok none,
        { k with Jobs := mapSet (mapSet (mapSet k.Jobs uuid (emptyJob Q)) uuid t) uuid t },
        ⟨s ++ [t], calls0 ++ [Call.get k.kubeNamespace t.ObjectMeta.Name,
          Call.create k.kubeNamespace t]⟩) := by
    rw [LaunchJob_missing x (storeJobs Q) k ⟨s, calls0⟩ job uuid t GetError.notFound hid hd
      (by rw [hg])]
    simp only [hg, hc, List.append_assoc, List.singleton_append]
  have hg2 : ((storeJobs Q).Get (s ++ [t]) k.kubeNamespace t.ObjectMeta.Name) =
      (.ok t, s ++ [t]) := by
    simp only [storeJobs, find_named_append s t hfree]
  rw [h1]
  refine ⟨rfl, rfl, rfl, ?_, ?_⟩
  · dsimp only
    rw [LaunchJob_found x (storeJobs Q)
      { k with Jobs := mapSet (mapSet (mapSet k.Jobs uuid (emptyJob Q)) uuid t) uuid t }
      ⟨s ++ [t], calls0 ++ [Call.get k.kubeNamespace t.ObjectMeta.Name,
          Call.create k.kubeNamespace t]⟩ job uuid t t hid hd (by rw [hg2])]
    simp only [hg2, List.append_assoc, List.cons_append, List.nil_append]
  · simp [List.filter_append, List.filter, isCreate]

/-- C7, as the code has it. When the lookup of `LaunchJob` returns an error, whether not
found or any other, the lookup failure is not propagated: the call issues the create call
for the derived job and writes the registry entry of the identifier, which after the call
holds the object that the create call returned, and it returns an error exactly when the
create call fails; only a lookup that finds a job stops it, with success, no create call
and the manager, its registry included, as it was. -/
theorem C7_lookup_error_leads_to_create {Q σ : Type} (x : Externals Q)
    (jobs : JobInterface Q σ) (k : KubeJobManager Q) (w : Cluster Q σ) (job : BuildkiteJob)
    (uuid : String) (t : Job Q) (hid : job.ID = some uuid)
    (hd : deriveJob x k.jobTemplate k.org k.pipeline uuid job.AgentQueryRules = .ok t) :
    (∀ e, (jobs.Get w.state k.kubeNamespace t.ObjectMeta.Name).1 = .error e →
      (LaunchJob x jobs k w job).2.2.calls =
        w.calls ++ [Call.get k.kubeNamespace t.ObjectMeta.Name, Call.create k.kubeNamespace t] ∧
      mapGet (LaunchJob x jobs k w job).2.1.Jobs uuid =
        some (jobs.Create (jobs.Get w.state k.kubeNamespace t.ObjectMeta.Name).2
          k.kubeNamespace t).1.1 ∧
      (LaunchJob x jobs k w job).1 =
        .ok (((jobs.Create (jobs.Get w.state k.kubeNamespace t.ObjectMeta.Name).2
          k.kubeNamespace t).1.2).map (fun err => "could not launch job: " ++ err))) ∧
    (∀ r, (jobs.Get w.state k.kubeNamespace t.ObjectMeta.Name).1 = .ok r →
      (LaunchJob x jobs k w job).1 = .ok none ∧
      (LaunchJob x jobs k w job).2.2.calls =
        w.calls ++ [Call.get k.kubeNamespace t.ObjectMeta.Name] ∧
      (LaunchJob x jobs k w job).2.1 = k) := by
  constructor
  · intro e hg
    rw [LaunchJob_missing x jobs k w job uuid t e hid hd hg]
    refine ⟨by simp, mapGet_mapSet_self _ _ _, ?_⟩
    simp only
    cases (jobs.Create (jobs.Get w.state k.kubeNamespace t.ObjectMeta.Name).2
      k.kubeNamespace t).1.2 <;> rfl
  · intro r hg
    rw [LaunchJob_found x jobs k w job uuid t r hid hd hg]
    exact ⟨rfl, rfl, rfl⟩

/-- C8, as the code has it. When no job of the derived name is found and the create call
fails, `LaunchJob` returns an error to its caller and the registry keeps an entry for the
identifier, whose value is the object that the failed create call returned; every other
registry entry is unchanged. -/
theorem C8_failed_create_keeps_entry {Q σ : Type} (x : Externals Q)
    (jobs : JobInterface Q σ) (k : KubeJobManager Q) (w : Cluster Q σ) (job : BuildkiteJob)
    (uuid err : String) (t : Job Q) (e : GetError) (hid : job.ID = some uuid)
    (hd : deriveJob x k.jobTemplate k.org k.pipeline uuid job.AgentQueryRules = .ok t)
    (hg : (jobs.Get w.state k.kubeNamespace t.ObjectMeta.Name).1 = .error e)
    (hc : (jobs.Create (jobs.Get w.state k.kubeNamespace t.ObjectMeta.Name).2
      k.kubeNamespace t).1.2 = some err) :
    (LaunchJob x jobs k w job).1 = .ok (some ("could not launch job: " ++ err)) ∧
    mapGet (LaunchJob x jobs k w job).2.1.Jobs uuid =
      some (jobs.Create (jobs.Get w.state k.kubeNamespace t.ObjectMeta.Name).2
        k.kubeNamespace t).1.1 ∧
    (∀ id, id ≠ uuid →
      mapGet (LaunchJob x jobs k w job).2.1.Jobs id = mapGet k.Jobs id) := by
  rw [LaunchJob_missing x jobs k w job uuid t e hid hd hg]
  refine ⟨?_, mapGet_mapSet_self _ _ _, ?_⟩
  · simp only [hc]
  · intro id hne
    exact mapGet_registry_ne k.Jobs uuid id _ _ _ hne

/-- C10, as the code has it. For an entry with an identifier, `LaunchJob` halts the process
through its fatal branch when the stored template does not decode as a job; and it returns
success or an error value to its caller when the template decodes as a job with a primary
container that declares resource requests, or that declares none while no `cpu` or `memory`
token of the entry parses as a quantity. -/
theorem C10_returns_or_fatal {Q σ : Type} (x : Externals Q) (jobs : JobInterface Q σ)
    (k : KubeJobManager Q) (w : Cluster Q σ) (job : BuildkiteJob) (uuid : String)
    (hid : job.ID = some uuid) :
    (x.Unmarshal k.jobTemplate = none →
      ∃ msg, (LaunchJob x jobs k w job).1 = .error (.fatal msg)) ∧
    (∀ t c0 rest, x.Unmarshal k.jobTemplate = some t →
      t.Spec.Template.Spec.Containers = c0 :: rest →
      (c0.Resources.Requests = none → ∀ tok ∈ job.AgentQueryRules,
        (ruleValue "cpu" tok).bind x.ParseQuantity = none ∧
        (ruleValue "memory" tok).bind x.ParseQuantity = none) →
      ∃ e, (LaunchJob x jobs k w job).1 = .ok e) := by
  constructor
  · intro hU
    have hd : deriveJob x k.jobTemplate k.org k.pipeline uuid job.AgentQueryRules =
        .error (.fatal "json: cannot unmarshal") := by
      unfold deriveJob
      rw [hU]
    rw [LaunchJob_halt x jobs k w job uuid _ hid hd]
    exact ⟨_, rfl⟩
  · intro t c0 rest hU hC hR
    obtain ⟨c, hA⟩ := applyRules_total x job.AgentQueryRules c0 hR
    exact LaunchJob_returns x jobs k w job uuid _ hid
      (deriveJob_of x _ _ _ uuid _ t c0 c rest hU hC hA)

/-! ## The completion reconciler -/

theorem cleanPod_calls {Q σ : Type} (jobs : JobInterface Q σ) (ns : String) (pod : Pod)
    (statuses : List ContainerStatus) :
    ∀ w : Cluster Q σ, (cleanPod jobs ns pod w statuses).calls =
      w.calls ++ (statuses.filter isTerminatedAgent).map
        (fun _ => Call.delete ns (jobNameOf pod) DeletionPropagation.Foreground) := by
  induction statuses with
  | nil => intro w; simp [cleanPod]
  | cons c rest ih =>
    intro w
    rw [cleanPod]
    by_cases hc : c.State.Terminated ≠ none ∧ c.Name = "buildkite-agent"
    · have hb : isTerminatedAgent c = true := decide_eq_true hc
      rw [if_pos hc, ih, List.filter_cons_of_pos hb]
      simp
    · have hb : ¬ (isTerminatedAgent c = true) := fun hd => hc (of_decide_eq_true hd)
      rw [if_neg hc, ih, List.filter_cons_of_neg hb]

theorem filter_agent_of_oneAgent (pod : Pod) (h : oneAgent pod) :
    (pod.Status.ContainerStatuses.filter isTerminatedAgent).length =
      if agentTerminated pod then 1 else 0 := by
  have hle : (pod.Status.ContainerStatuses.filter isTerminatedAgent).length ≤ 1 := by
    have hsub : (pod.Status.ContainerStatuses.filter isTerminatedAgent).Sublist
        (pod.Status.ContainerStatuses.filter (fun c => decide (c.Name = "buildkite-agent"))) := by
      apply List.monotone_filter_right
      intro c hc
      simp only [isTerminatedAgent, decide_eq_true_eq] at hc
      simp [hc.2]
    exact le_trans hsub.length_le h
  by_cases ha : agentTerminated pod = true
  · rw [if_pos ha]
    obtain ⟨c, hc, hcb⟩ := List.any_eq_true.mp ha
    have hm : c ∈ pod.Status.ContainerStatuses.filter isTerminatedAgent :=
      List.mem_filter.mpr ⟨hc, hcb⟩
    have hpos : 0 < (pod.Status.ContainerStatuses.filter isTerminatedAgent).length :=
      List.length_pos_of_mem hm
    omega
  · rw [if_neg ha]
    have : pod.Status.ContainerStatuses.filter isTerminatedAgent = [] := by
      rw [List.filter_eq_nil_iff]
      intro c hc hcb
      exact ha (List.any_eq_true.mpr ⟨c, hc, hcb⟩)
    rw [this]
    rfl

theorem cleanPods_calls {Q σ : Type} (jobs : JobInterface Q σ) (ns : String)
    (pods : List Pod) (h : ∀ pod ∈ pods, oneAgent pod) :
    ∀ w : Cluster Q σ, (cleanPods jobs ns w pods).calls =
      w.calls ++ (pods.filter agentTerminated).map
        (fun pod => Call.delete ns (jobNameOf pod) DeletionPropagation.Foreground) := by
  induction pods with
  | nil => intro w; simp [cleanPods]
  | cons pod rest ih =>
    intro w
    rw [cleanPods, ih (fun p hp => h p (by simp [hp])), cleanPod_calls]
    have hlen := filter_agent_of_oneAgent pod (h pod (by simp))
    by_cases ha : agentTerminated pod = true
    · rw [if_pos ha] at hlen
      rw [List.filter_cons_of_pos ha]
      obtain ⟨c, hc⟩ := List.length_eq_one.mp hlen
      rw [hc]
      simp
    · rw [if_neg ha] at hlen
      rw [List.filter_cons_of_neg ha, List.length_eq_zero.mp hlen]
      simp

theorem cleanPods_calls_all {Q σ : Type} (jobs : JobInterface Q σ) (ns : String)
    (pods : List Pod) :
    ∀ w : Cluster Q σ, (cleanPods jobs ns w pods).calls =
      w.calls ++ pods.flatMap (fun pod =>
        (pod.Status.ContainerStatuses.filter isTerminatedAgent).map
          (fun _ => Call.delete ns (jobNameOf pod) DeletionPropagation.Foreground)) := by
  induction pods with
  | nil => intro w; simp [cleanPods]
  | cons pod rest ih =>
    intro w
    rw [cleanPods, ih, cleanPod_calls, List.flatMap_cons, List.append_assoc]

/-- C9, as the code has it. In one cycle of `cleanCompletedJobs`, whatever the pods the
listing returns and whatever each delete call answers, the calls issued after the listing
are, in the order of the pod list and within a pod of its container statuses, one delete
with foreground propagation of the job named by the `job-name` label of the pod (the empty
name when the pod has no such label) for each container status named `buildkite-agent`
that has a terminated state, and nothing else.  When every listed pod has at most one
container status of that name, this is exactly one such delete for each pod whose
`buildkite-agent` container has a terminated state, and none for any other pod. -/
theorem C9_cycle_deletes_terminated {Q σ : Type} (jobs : JobInterface Q σ)
    (pods : PodInterface σ) (k : KubeJobManager Q) (w : Cluster Q σ) :
    (cleanCycle jobs pods k w).calls =
      w.calls ++ Call.list k.kubeNamespace (selector k.org k.pipeline) ::
        ((pods.List w.state k.kubeNamespace (selector k.org k.pipeline)).1.1.flatMap
          (fun pod => (pod.Status.ContainerStatuses.filter
              (fun c => decide (c.State.Terminated ≠ none ∧ c.Name = "buildkite-agent"))).map
            (fun _ => Call.delete k.kubeNamespace ((mapGet pod.Labels "job-name").getD "")
              DeletionPropagation.Foreground))) ∧
    ((∀ pod ∈ (pods.List w.state k.kubeNamespace (selector k.org k.pipeline)).1.1,
        (pod.Status.ContainerStatuses.filter
          (fun c => decide (c.Name = "buildkite-agent"))).length ≤ 1) →
      (cleanCycle jobs pods k w).calls =
        w.calls ++ Call.list k.kubeNamespace (selector k.org k.pipeline) ::
          (((pods.List w.state k.kubeNamespace (selector k.org k.pipeline)).1.1.filter
              (fun pod => pod.Status.ContainerStatuses.any
                (fun c => decide (c.State.Terminated ≠ none ∧ c.Name = "buildkite-agent")))).map
            (fun pod => Call.delete k.kubeNamespace ((mapGet pod.Labels "job-name").getD "")
              DeletionPropagation.Foreground))) := by
  constructor
  · unfold cleanCycle
    simp only
    rw [cleanPods_calls_all jobs k.kubeNamespace _]
    simp only [List.append_assoc, List.singleton_append]
    rfl
  · intro h
    unfold cleanCycle
    simp only
    rw [cleanPods_calls jobs k.kubeNamespace _ h]
    simp only [List.append_assoc, List.singleton_append]
    rfl

/-! ## The claims at the concrete instance -/



/-- C1 fails on the code: two different pairs of organisation and pipeline give the same
selector text, so the selector of one pair cannot match exactly the labels of the jobs
derived for it; and the job derived for the organisation `x,kubekite-pipeline=y` carries
that value as its label while the selector built from the same organisation and pipeline
does not match the labels of the job. -/
theorem C1_counterexample :
    selector "x,kubekite-pipeline=y" "z" = selector "x" "y,kubekite-pipeline=z" ∧
      ∃ j j' : Job Nat,
        deriveJob demoExternals "job.json" "x,kubekite-pipeline=y" "z" "42" [] = .ok j ∧
        deriveJob demoExternals "job.json" "x" "y,kubekite-pipeline=z" "42" [] = .ok j' ∧
        mapGet j.ObjectMeta.Labels "kubekite-org" = some "x,kubekite-pipeline=y" ∧
        mapGet j'.ObjectMeta.Labels "kubekite-org" = some "x" ∧
        selectorMatches (selector "x,kubekite-pipeline=y" "z") j.ObjectMeta.Labels = false ∧
        selectorMatches (selector "x,kubekite-pipeline=y" "z")
          j.Spec.Template.ObjectMeta.Labels = false :=
  ⟨by decide, _, _, rfl, rfl, rfl, rfl, rfl, rfl⟩

theorem C1_witness :
    deriveJob demoExternals "job.json" "acme" "web" "42" ["image=foo", "cpu=2"] =
        .ok (demoDerived "foo" "image=foo,cpu=2" [("cpu", 2)]) ∧
      ((∀ p ∈ [("kubekite-managed", "true"), ("kubekite-org", "acme"),
            ("kubekite-pipeline", "web")],
          mapGet (demoDerived "foo" "image=foo,cpu=2" [("cpu", 2)]).ObjectMeta.Labels p.1 =
            some p.2 ∧
          mapGet (demoDerived "foo" "image=foo,cpu=2"
            [("cpu", 2)]).Spec.Template.ObjectMeta.Labels p.1 = some p.2) ∧
        (',' ∉ "acme".data → '=' ∉ "acme".data → ',' ∉ "web".data → '=' ∉ "web".data →
          selectorMatches (selector "acme" "web")
            (demoDerived "foo" "image=foo,cpu=2" [("cpu", 2)]).ObjectMeta.Labels = true ∧
          selectorMatches (selector "acme" "web")
            (demoDerived "foo" "image=foo,cpu=2"
              [("cpu", 2)]).Spec.Template.ObjectMeta.Labels = true ∧
          ∀ (tpl' org' pl' uuid' : String) (rules' : List String) (j' : Job Nat),
            deriveJob demoExternals tpl' org' pl' uuid' rules' = .ok j' →
            ((selectorMatches (selector "acme" "web") j'.ObjectMeta.Labels = true ↔
                org' = "acme" ∧ pl' = "web") ∧
              (selectorMatches (selector "acme" "web")
                  j'.Spec.Template.ObjectMeta.Labels = true ↔
                org' = "acme" ∧ pl' = "web")))) ∧
      ',' ∉ "acme".data ∧ '=' ∉ "acme".data ∧ ',' ∉ "web".data ∧ '=' ∉ "web".data ∧
      selectorMatches (selector "acme" "web")
        (demoDerived "foo" "image=foo,cpu=2" [("cpu", 2)]).ObjectMeta.Labels = true :=
  ⟨rfl, C1_ownership_labels demoExternals "job.json" "acme" "web" "42"
    ["image=foo", "cpu=2"] _ rfl, by decide, by decide, by decide, by decide, rfl⟩

theorem C2_witness :
    deriveJob demoExternals "job.json" "acme" "web" "42" ["image=foo", "cpu=2"] =
        .ok (demoDerived "foo" "image=foo,cpu=2" [("cpu", 2)]) ∧
      deriveJob demoExternals "job.json" "acme" "web" "42" [] =
        .ok (demoDerived "buildkite/agent:3" "" [("cpu", 1)]) ∧
      ((demoDerived "foo" "image=foo,cpu=2" [("cpu", 2)]).ObjectMeta.Name =
          "buildkite-agent-" ++ "42" ∧
        (demoDerived "buildkite/agent:3" "" [("cpu", 1)]).ObjectMeta.Name =
          (demoDerived "foo" "image=foo,cpu=2" [("cpu", 2)]).ObjectMeta.Name) :=
  ⟨rfl, rfl, C2_name_deterministic demoExternals demoExternals "job.json" "job.json" "acme"
    "acme" "web" "web" "42" ["image=foo", "cpu=2"] [] _ _ rfl rfl⟩

theorem derived_last_write_wins_demo :
    demoExternals.Unmarshal "job.json" = some demoTemplate ∧
      demoTemplate.Spec.Template.Spec.Containers = demoContainer :: [] ∧
      deriveJob demoExternals "job.json" "acme" "web" "42" ["image=foo", "cpu=2", "cpu=4", "image=bar"] =
        .ok (demoDerived "bar" "image=foo,cpu=2,cpu=4,image=bar" [("cpu", 4)]) ∧
      ∃ c, primaryContainer (demoDerived "bar" "image=foo,cpu=2,cpu=4,image=bar" [("cpu", 4)]) = some c ∧
        c.Image = lastImage ["image=foo", "cpu=2", "cpu=4", "image=bar"] demoContainer.Image ∧
        requestOf c "cpu" =
          lastRequest demoExternals "cpu" ["image=foo", "cpu=2", "cpu=4", "image=bar"] (requestOf demoContainer "cpu") ∧
        requestOf c "memory" =
          lastRequest demoExternals "memory" ["image=foo", "cpu=2", "cpu=4", "image=bar"]
            (requestOf demoContainer "memory") ∧
        (∀ xs ys v, ["image=foo", "cpu=2", "cpu=4", "image=bar"] = xs ++ ("image" ++ "=" ++ v) :: ys → '=' ∉ v.data →
          (∀ tok ∈ ys, ruleValue "image" tok = none) → c.Image = v) ∧
        (∀ name xs ys v q, name = "cpu" ∨ name = "memory" →
          ["image=foo", "cpu=2", "cpu=4", "image=bar"] = xs ++ (name ++ "=" ++ v) :: ys → '=' ∉ v.data →
          demoExternals.ParseQuantity v = some q →
          (∀ tok ∈ ys, (ruleValue name tok).bind demoExternals.ParseQuantity = none) →
          requestOf c name = some q) :=
  ⟨rfl, rfl, rfl, derived_last_write_wins demoExternals "job.json" "acme" "web" "42"
    ["image=foo", "cpu=2", "cpu=4", "image=bar"] demoTemplate _ demoContainer [] rfl rfl rfl⟩

theorem C4_witness :
    demoExternals.Unmarshal "job.json" = some demoTemplate ∧
      demoTemplate.Spec.Template.Spec.Containers = demoContainer :: [] ∧
      ((∀ rules, (∀ tok ∈ rules, BadRule demoExternals tok) →
        ∃ j c, deriveJob demoExternals "job.json" "acme" "web" "42" rules = .ok j ∧
          primaryContainer j = some c ∧
          c.Image = demoContainer.Image ∧ c.Resources = demoContainer.Resources) ∧
      (BadRule demoExternals "badtoken" ∧ BadRule demoExternals "image=a=b" ∧
        BadRule demoExternals "zone=us-east") ∧
      (∀ xs ys b, BadRule demoExternals b →
        (deriveJob demoExternals "job.json" "acme" "web" "42" (xs ++ b :: ys)).map
            imageAndResources =
          (deriveJob demoExternals "job.json" "acme" "web" "42" (xs ++ ys)).map
            imageAndResources)) :=
  ⟨rfl, rfl, C4_bad_rules_ignored demoExternals "job.json" "acme" "web" "42" demoTemplate
    demoContainer [] rfl rfl⟩

theorem derived_agent_tags_demo :
    demoExternals.Unmarshal "job.json" = some demoTemplate ∧
      demoTemplate.Spec.Template.Spec.Containers = demoContainer :: [] ∧
      deriveJob demoExternals "job.json" "acme" "web" "42" ["image=foo", "cpu=2"] =
        .ok (demoDerived "foo" "image=foo,cpu=2" [("cpu", 2)]) ∧
      ∃ c, primaryContainer (demoDerived "foo" "image=foo,cpu=2" [("cpu", 2)]) = some c ∧
        c.Env = demoContainer.Env ++
          [EnvVar.mk "BUILDKITE_AGENT_TAGS" (String.intercalate "," ["image=foo", "cpu=2"]) none] ∧
        (["image=foo", "cpu=2"] = [] →
          c.Env = demoContainer.Env ++ [EnvVar.mk "BUILDKITE_AGENT_TAGS" "" none]) :=
  ⟨rfl, rfl, rfl, derived_agent_tags demoExternals "job.json" "acme" "web" "42"
    ["image=foo", "cpu=2"] demoTemplate _ demoContainer [] rfl rfl rfl⟩

/-- C3 at the failing input. The primary container of the template `bare.json` declares no
resource requests and the entry carries the token `cpu=2`, whose value parses: the claim has
the derived container request the cpu quantity 2, the last parsed `cpu` value, and the code
derives no container at all, because the write at line 114 goes into a nil map and
panics. -/
theorem C3_nil_requests_panic :
    demoExternals.Unmarshal "bare.json" = some bareTemplate ∧
      bareTemplate.Spec.Template.Spec.Containers = [bareContainer] ∧
      bareContainer.Resources.Requests = none ∧
      lastRequest demoExternals "cpu" ["cpu=2"] (requestOf bareContainer "cpu") = some 2 ∧
      deriveJob demoExternals "bare.json" "acme" "web" "42" ["cpu=2"] =
        .error (Halt.panic "assignment to entry in nil map") :=
  ⟨rfl, rfl, rfl, rfl, rfl⟩

/-- C5 at the failing input. The primary container of the template `bare.json` declares no
resource requests and the entry carries the token `memory=4`, whose value parses: the claim
has the derived container carry `BUILDKITE_AGENT_TAGS=memory=4` after the environment of
the template, and `LaunchJob` panics at line 119 after appending the variable to its local
copy of the container, so that no job is derived, no call reaches the cluster and the
variable is never emitted. -/
theorem C5_no_variable_on_panic :
    demoExternals.Unmarshal "bare.json" = some bareTemplate ∧
      bareTemplate.Spec.Template.Spec.Containers = [bareContainer] ∧
      deriveJob demoExternals "bare.json" "acme" "web" "42" ["memory=4"] =
        .error (Halt.panic "assignment to entry in nil map") ∧
      LaunchJob demoExternals (storeJobs Nat) { demoManager with jobTemplate := "bare.json" }
          ⟨[], []⟩ ⟨some "42", ["memory=4"]⟩ =
        (.error (Halt.panic "assignment to entry in nil map"),
          { demoManager with jobTemplate := "bare.json" }, ⟨[], []⟩) :=
  ⟨rfl, rfl, rfl, rfl⟩

theorem C6_witness :
    (LaunchJob demoExternals (storeJobs Nat) demoManager ⟨[], []⟩
        ⟨some "42", ["image=foo", "cpu=2"]⟩).1 = .ok none ∧
      (LaunchJob demoExternals (storeJobs Nat) demoManager ⟨[], []⟩
        ⟨some "42", ["image=foo", "cpu=2"]⟩).2.2.calls =
        [] ++ [Call.get "ci" "buildkite-agent-42",
          Call.create "ci" (demoDerived "foo" "image=foo,cpu=2" [("cpu", 2)])] ∧
      (LaunchJob demoExternals (storeJobs Nat) demoManager ⟨[], []⟩
        ⟨some "42", ["image=foo", "cpu=2"]⟩).2.2.state =
        [] ++ [demoDerived "foo" "image=foo,cpu=2" [("cpu", 2)]] ∧
      (LaunchJob demoExternals (storeJobs Nat)
        (LaunchJob demoExternals (storeJobs Nat) demoManager ⟨[], []⟩
          ⟨some "42", ["image=foo", "cpu=2"]⟩).2.1
        (LaunchJob demoExternals (storeJobs Nat) demoManager ⟨[], []⟩
          ⟨some "42", ["image=foo", "cpu=2"]⟩).2.2
        ⟨some "42", ["image=foo", "cpu=2"]⟩) =
        (.ok none,
          (LaunchJob demoExternals (storeJobs Nat) demoManager ⟨[], []⟩
            ⟨some "42", ["image=foo", "cpu=2"]⟩).2.1,
          ⟨[] ++ [demoDerived "foo" "image=foo,cpu=2" [("cpu", 2)]],
            [] ++ [Call.get "ci" "buildkite-agent-42",
              Call.create "ci" (demoDerived "foo" "image=foo,cpu=2" [("cpu", 2)]),
              Call.get "ci" "buildkite-agent-42"]⟩) ∧
      (([] ++ [Call.get "ci" "buildkite-agent-42",
          Call.create "ci" (demoDerived "foo" "image=foo,cpu=2" [("cpu", 2)]),
          Call.get "ci" "buildkite-agent-42"]).filter isCreate).length =
        (([] : List (Call Nat)).filter isCreate).length + 1 :=
  C6_launch_twice_creates_once demoExternals demoManager [] []
    ⟨some "42", ["image=foo", "cpu=2"]⟩ "42"
    (demoDerived "foo" "image=foo,cpu=2" [("cpu", 2)]) rfl rfl rfl

/-- C7 fails on the code: the lookup fails because the connection is refused, not because
the job is not found, and `LaunchJob` returns success, not an error, after issuing the
create call and writing the registry. -/
theorem C7_counterexample :
    (flakyJobs.Get () "ci" "buildkite-agent-42").1 =
        .error (GetError.other "connection refused") ∧
      (LaunchJob demoExternals flakyJobs demoManager ⟨(), []⟩ ⟨some "42", []⟩).1 = .ok none ∧
      (LaunchJob demoExternals flakyJobs demoManager ⟨(), []⟩ ⟨some "42", []⟩).2.2.calls =
        [Call.get "ci" "buildkite-agent-42",
          Call.create "ci" (demoDerived "buildkite/agent:3" "" [("cpu", 1)])] ∧
      demoManager.Jobs = [] ∧
      (LaunchJob demoExternals flakyJobs demoManager ⟨(), []⟩ ⟨some "42", []⟩).2.1.Jobs =
        [("42", demoDerived "buildkite/agent:3" "" [("cpu", 1)])] :=
  ⟨rfl, rfl, rfl, rfl, rfl⟩

theorem C7_witness :
    (∀ e, (flakyJobs.Get () "ci" "buildkite-agent-42").1 = .error e →
      (LaunchJob demoExternals flakyJobs demoManager ⟨(), []⟩ ⟨some "42", []⟩).2.2.calls =
        [] ++ [Call.get "ci" "buildkite-agent-42",
          Call.create "ci" (demoDerived "buildkite/agent:3" "" [("cpu", 1)])] ∧
      mapGet (LaunchJob demoExternals flakyJobs demoManager ⟨(), []⟩
          ⟨some "42", []⟩).2.1.Jobs "42" =
        some (flakyJobs.Create (flakyJobs.Get () "ci" "buildkite-agent-42").2 "ci"
          (demoDerived "buildkite/agent:3" "" [("cpu", 1)])).1.1 ∧
      (LaunchJob demoExternals flakyJobs demoManager ⟨(), []⟩ ⟨some "42", []⟩).1 =
        .ok (((flakyJobs.Create (flakyJobs.Get () "ci" "buildkite-agent-42").2 "ci"
          (demoDerived "buildkite/agent:3" "" [("cpu", 1)])).1.2).map
            (fun err => "could not launch job: " ++ err))) ∧
    (∀ r, (flakyJobs.Get () "ci" "buildkite-agent-42").1 = .ok r →
      (LaunchJob demoExternals flakyJobs demoManager ⟨(), []⟩ ⟨some "42", []⟩).1 = .ok none ∧
      (LaunchJob demoExternals flakyJobs demoManager ⟨(), []⟩ ⟨some "42", []⟩).2.2.calls =
        [] ++ [Call.get "ci" "buildkite-agent-42"] ∧
      (LaunchJob demoExternals flakyJobs demoManager ⟨(), []⟩ ⟨some "42", []⟩).2.1 =
        demoManager) :=
  C7_lookup_error_leads_to_create demoExternals flakyJobs demoManager ⟨(), []⟩
    ⟨some "42", []⟩ "42" (demoDerived "buildkite/agent:3" "" [("cpu", 1)]) rfl rfl

/-- C8 fails on the code: the create call fails and returns an empty job with its error,
and after the call the registry maps the identifier to that empty job, not to the derived
job specification. -/
theorem C8_counterexample :
    deriveJob demoExternals "job.json" "acme" "web" "42" [] =
        .ok (demoDerived "buildkite/agent:3" "" [("cpu", 1)]) ∧
      (refusingJobs.Get () "ci" "buildkite-agent-42").1 = .error GetError.notFound ∧
      (refusingJobs.Create () "ci" (demoDerived "buildkite/agent:3" "" [("cpu", 1)])).1.2 =
        some "exceeded quota" ∧
      (LaunchJob demoExternals refusingJobs demoManager ⟨(), []⟩ ⟨some "42", []⟩).1 =
        .ok (some "could not launch job: exceeded quota") ∧
      mapGet (LaunchJob demoExternals refusingJobs demoManager ⟨(), []⟩
        ⟨some "42", []⟩).2.1.Jobs "42" = some (emptyJob Nat) ∧
      mapGet (LaunchJob demoExternals refusingJobs demoManager ⟨(), []⟩
        ⟨some "42", []⟩).2.1.Jobs "42" ≠
          some (demoDerived "buildkite/agent:3" "" [("cpu", 1)]) :=
  ⟨rfl, rfl, rfl, rfl, rfl, by decide⟩

theorem C8_witness :
    (LaunchJob demoExternals refusingJobs demoManager ⟨(), []⟩ ⟨some "42", []⟩).1 =
        .ok (some ("could not launch job: " ++ "exceeded quota")) ∧
      mapGet (LaunchJob demoExternals refusingJobs demoManager ⟨(), []⟩
        ⟨some "42", []⟩).2.1.Jobs "42" =
        some (refusingJobs.Create (refusingJobs.Get () "ci" "buildkite-agent-42").2 "ci"
          (demoDerived "buildkite/agent:3" "" [("cpu", 1)])).1.1 ∧
      (∀ id, id ≠ "42" →
        mapGet (LaunchJob demoExternals refusingJobs demoManager ⟨(), []⟩
          ⟨some "42", []⟩).2.1.Jobs id = mapGet demoManager.Jobs id) :=
  C8_failed_create_keeps_entry demoExternals refusingJobs demoManager ⟨(), []⟩
    ⟨some "42", []⟩ "42" "exceeded quota" (demoDerived "buildkite/agent:3" "" [("cpu", 1)])
    GetError.notFound rfl rfl rfl rfl

/-- C9 fails on the code: the listing returns one pod that reports two terminated container
statuses named `buildkite-agent`, and the cycle issues two deletes of its job, not exactly
one. -/
theorem C9_counterexample :
    (twinPods.List () "ci" (selector "acme" "web")).1.1 =
        [demoPod "p1" "buildkite-agent-1"
          [demoStatus "buildkite-agent" true, demoStatus "buildkite-agent" true]] ∧
      (cleanCycle refusingJobs twinPods demoManager ⟨(), []⟩).calls =
        [Call.list "ci" "kubekite-managed=true,kubekite-org=acme,kubekite-pipeline=web",
         Call.delete "ci" "buildkite-agent-1" DeletionPropagation.Foreground,
         Call.delete "ci" "buildkite-agent-1" DeletionPropagation.Foreground] :=
  ⟨rfl, rfl⟩

theorem C9_witness :
    (∀ pod ∈ (demoPods.List () "ci" (selector "acme" "web")).1.1,
        (pod.Status.ContainerStatuses.filter
          (fun c => decide (c.Name = "buildkite-agent"))).length ≤ 1) ∧
      ((cleanCycle refusingJobs demoPods demoManager ⟨(), []⟩).calls =
        [Call.list "ci" "kubekite-managed=true,kubekite-org=acme,kubekite-pipeline=web",
         Call.delete "ci" "buildkite-agent-1" DeletionPropagation.Foreground,
         Call.delete "ci" "buildkite-agent-3" DeletionPropagation.Foreground] ∧
      ((∀ pod ∈ (demoPods.List () "ci" (selector "acme" "web")).1.1,
          (pod.Status.ContainerStatuses.filter
            (fun c => decide (c.Name = "buildkite-agent"))).length ≤ 1) →
        (cleanCycle refusingJobs demoPods demoManager ⟨(), []⟩).calls =
          [Call.list "ci" "kubekite-managed=true,kubekite-org=acme,kubekite-pipeline=web",
           Call.delete "ci" "buildkite-agent-1" DeletionPropagation.Foreground,
           Call.delete "ci" "buildkite-agent-3" DeletionPropagation.Foreground])) :=
  ⟨by decide, C9_cycle_deletes_terminated refusingJobs demoPods demoManager ⟨(), []⟩⟩

/-- The cycle at the concrete instance: after the listing, a delete for the first and for
the third pod, none for the second, although every delete call fails. -/
theorem cleanCycle_demo :
    (cleanCycle refusingJobs demoPods demoManager ⟨(), []⟩).calls =
      [Call.list "ci" "kubekite-managed=true,kubekite-org=acme,kubekite-pipeline=web",
       Call.delete "ci" "buildkite-agent-1" DeletionPropagation.Foreground,
       Call.delete "ci" "buildkite-agent-3" DeletionPropagation.Foreground] :=
  rfl

/-- C10 fails on the code: the stored document does not decode as a job and `LaunchJob`
takes its fatal branch, which halts the process instead of returning. -/
theorem C10_counterexample :
    demoExternals.Unmarshal "not a job" = none ∧
      (LaunchJob demoExternals (storeJobs Nat) { demoManager with jobTemplate := "not a job" }
        ⟨[], []⟩ ⟨some "42", []⟩).1 = .error (Halt.fatal "json: cannot unmarshal") :=
  ⟨rfl, rfl⟩

theorem C10_witness :
    (⟨some "42", ["cpu=2"]⟩ : BuildkiteJob).ID = some "42" ∧
      ((demoExternals.Unmarshal demoManager.jobTemplate = none →
        ∃ msg, (LaunchJob demoExternals (storeJobs Nat) demoManager ⟨[], []⟩
          ⟨some "42", ["cpu=2"]⟩).1 = .error (.fatal msg)) ∧
      (∀ t c0 rest, demoExternals.Unmarshal demoManager.jobTemplate = some t →
        t.Spec.Template.Spec.Containers = c0 :: rest →
        (c0.Resources.Requests = none →
          ∀ tok ∈ (⟨some "42", ["cpu=2"]⟩ : BuildkiteJob).AgentQueryRules,
            (ruleValue "cpu" tok).bind demoExternals.ParseQuantity = none ∧
            (ruleValue "memory" tok).bind demoExternals.ParseQuantity = none) →
        ∃ e, (LaunchJob demoExternals (storeJobs Nat) demoManager ⟨[], []⟩
          ⟨some "42", ["cpu=2"]⟩).1 = .ok e)) :=
  ⟨rfl, C10_returns_or_fatal demoExternals (storeJobs Nat) demoManager ⟨[], []⟩
    ⟨some "42", ["cpu=2"]⟩ "42" rfl⟩

end Kubekite
